import Mathlib

set_option maxRecDepth 20000

/-!
Verification development for the agentic tool-orchestration pipeline of the
repository (src/lib/streaming/tool-execution.ts, second revision of the file,
and the tool planner module `normalizeToolPlan`/`getLastUserText`).

The TypeScript code is shallowly embedded: pure functions become Lean
functions, the sequential side-effecting execution loop becomes explicit
state passing (the progress-event side channel is an accumulated list, the
external tool calls an oracle parameter, `generateId` an id-generator
parameter).  JSON serialization of structured payloads is modelled by keeping
the payloads structured, since serialization is injective on them.
-/

/-! ## JavaScript string primitives

`isJsWs` models the JavaScript regex class `\s` (whitespace) on the code
points that matter here: ASCII whitespace, NBSP, the Unicode space range
U+2000..U+200A, line/paragraph separators, narrow NBSP, MMSP, ideographic
space and BOM. -/

def isJsWs (c : Char) : Bool :=
  c.toNat = 32 || c.toNat = 9 || c.toNat = 10 || c.toNat = 11 || c.toNat = 12 ||
  c.toNat = 13 || c.toNat = 160 || c.toNat = 5760 ||
  (8192 ≤ c.toNat && c.toNat ≤ 8202) ||
  c.toNat = 8232 || c.toNat = 8233 || c.toNat = 8239 || c.toNat = 8287 ||
  c.toNat = 12288 || c.toNat = 65279

/-- `String.prototype.trim()` on the character list: drop leading and
trailing JS whitespace. -/
def trimChars (l : List Char) : List Char :=
  ((l.dropWhile isJsWs).reverse.dropWhile isJsWs).reverse

/-- `String.prototype.trim()`. -/
def jsTrim (s : String) : String := ⟨trimChars s.data⟩

/-- State machine for `str.replace(/\s+/g, r)`: `inRun` records whether the
previous character was inside a whitespace run (in which case further
whitespace is absorbed into the single replacement already emitted). -/
def replaceWsRunsAux (r : Char) (inRun : Bool) : List Char → List Char
  | [] => []
  | c :: rest =>
    if isJsWs c then
      if inRun then replaceWsRunsAux r true rest
      else r :: replaceWsRunsAux r true rest
    else c :: replaceWsRunsAux r false rest

/-- `str.replace(/\s+/g, r)` for a single replacement character `r`: every
maximal run of JS whitespace becomes one copy of `r`. -/
def replaceWsRuns (r : Char) (l : List Char) : List Char :=
  replaceWsRunsAux r false l

/-- `str.replace(/\s+/g, '-')` (used on invocation ids). -/
def jsReplaceWsDash (s : String) : String := ⟨replaceWsRuns '-' s.data⟩

/-- `str.replace(/\s+/g, ' ')` (used on result snippets). -/
def jsCollapseWs (s : String) : String := ⟨replaceWsRuns ' ' s.data⟩

/-- `str.slice(0, n)` for the snippet truncations (code points). -/
def jsSlice (s : String) (n : Nat) : String := ⟨s.data.take n⟩

/-- The decimal digit characters, for rendering numbers into template
strings. -/
def digitChar : Nat → Char
  | 0 => '0' | 1 => '1' | 2 => '2' | 3 => '3' | 4 => '4'
  | 5 => '5' | 6 => '6' | 7 => '7' | 8 => '8' | _ => '9'

/-- Fuel-based decimal digit accumulation (most significant digit first);
any `fuel > n` is sufficient, see `natReprCore_fuel`. -/
def natReprCore : Nat → Nat → List Char → List Char
  | 0, _, acc => acc
  | fuel + 1, n, acc =>
    if n < 10 then digitChar n :: acc
    else natReprCore fuel (n / 10) (digitChar (n % 10) :: acc)

/-- Decimal rendering of a natural number, as produced by a JS template
string `${n}`. -/
def natRepr (n : Nat) : String := ⟨natReprCore (n + 1) n []⟩

/-! ## Data model of the tool planner (src/unnamed/part_005)

`ToolPlan` is the zod `planSchema` shape.  Parameter maps are association
lists of JSON-ish values; JS `undefined` is modelled by absence of the key,
numbers by `Int` (no claim depends on fractional values), and the only
arrays the tool schemas accept are arrays of strings. -/

inductive JVal
  | jnull
  | jbool (b : Bool)
  | jnum (n : Int)
  | jstr (s : String)
  | jstrArr (elems : List String)
deriving DecidableEq, Repr

inductive ToolKind
  | search
  | retrieve
  | videoSearch
  | none
deriving DecidableEq, Repr, BEq

structure PlanStep where
  step : String
  detail : String
deriving DecidableEq, Repr

structure ToolInvocation where
  id : String
  tool : ToolKind
  description : String
  parameters : List (String × JVal)
deriving DecidableEq, Repr

structure ToolPlan where
  plan : List PlanStep
  toolInvocations : List ToolInvocation
  finalResponseInstruction : String
deriving DecidableEq, Repr

def DEFAULT_FINAL_RESPONSE_INSTRUCTION : String :=
  "Respond to the original user request using the collected information."

/-- `normalizeInvocationParameters`: strip entries whose value is
`null`/`undefined` (`undefined` is absence in the embedding).  The
`isPlainRecord` guard of the source cannot fire here because the typed plan
always carries a record. -/
def normalizeInvocationParameters (parameters : List (String × JVal)) :
    List (String × JVal) :=
  parameters.filter fun kv => kv.2 != JVal.jnull

/-- `normalizeInvocationId` (src/unnamed/part_005 lines 143-159): trim the
raw id, replace whitespace runs by `-`, fall back to `step-<index>` for
blank ids, and disambiguate repeats of the same base id by suffixing
`-<occurrence+1>`.  The `seenIds` map is modelled as a total function
defaulting to 0 (`seenIds.get(baseId) ?? 0`). -/
def normalizeInvocationId (rawId : String) (index : Nat) (seenIds : String → Nat) :
    String × (String → Nat) :=
  let trimmed := jsTrim rawId
  let fallbackId := "step-" ++ natRepr index
  let baseId := if trimmed.length > 0 then jsReplaceWsDash trimmed else fallbackId
  let occurrence := seenIds baseId
  let seenIds' := fun key => if key = baseId then occurrence + 1 else seenIds key
  if occurrence = 0 then (baseId, seenIds')
  else (baseId ++ "-" ++ natRepr (occurrence + 1), seenIds')

/-- The `.map((invocation, index) => …)` pass of `normalizeToolPlan` over the
invocations, threading the `seenIds` map; `index` is 1-based as in the
source (`index + 1`). -/
def assignInvocationIds : List ToolInvocation → Nat → (String → Nat) → List ToolInvocation
  | [], _, _ => []
  | inv :: rest, index, seenIds =>
    let p := normalizeInvocationId inv.id index seenIds
    { inv with
        id := p.1
        description := jsTrim inv.description
        parameters := normalizeInvocationParameters inv.parameters } ::
      assignInvocationIds rest (index + 1) p.2

/-- `normalizeToolPlan` (src/unnamed/part_005 lines 110-141). -/
def normalizeToolPlan (plan : ToolPlan) : ToolPlan :=
  let normalizedPlan :=
    (plan.plan.map fun step => { step := jsTrim step.step, detail := jsTrim step.detail }).filter
      fun step => step.step.length > 0 && step.detail.length > 0
  let normalizedInvocations :=
    (assignInvocationIds plan.toolInvocations 1 fun _ => 0).filter
      fun inv => inv.description.length > 0 || inv.tool == ToolKind.none
  let finalResponseInstruction := jsTrim plan.finalResponseInstruction
  { plan := normalizedPlan
    toolInvocations := normalizedInvocations
    finalResponseInstruction :=
      if finalResponseInstruction.length > 0 then finalResponseInstruction
      else DEFAULT_FINAL_RESPONSE_INSTRUCTION }

/-! ## Localization layer (tool-execution.ts lines 677-1059)

`Localization` is the fixed bundle of user-facing phrases; the three
formatting members are functions as in the source. -/

inductive SupportedLanguage
  | en | ru | es | ja | ko | zh | fr | de | it | pt | ar
deriving DecidableEq, Repr

structure LocalizationBundle where
  researchSummaryHeading : String
  sourcesDirectoryHeading : String
  noResultsFound : String
  unableToRetrieve : String
  noVideosFound : String
  plannedApproachHeading : String
  noPlanProvided : String
  executedRunsHeading : String
  noToolsExecuted : String
  completedSuccessfully : String
  failedWithError : String → String
  descriptionLabel : String
  statusLabel : String
  noSourcesInstruction : String
  useSourcesInstruction : String → String
  fallbackSearchDescription : String → String
  defaultFinalInstruction : String
  fallbackResponderInstruction : String

/-- The ASCII apostrophe character, written out so that the string literals
below need not contain it. -/
def asciiApos : String := ⟨[Char.ofNat 39]⟩

def enLocalization : LocalizationBundle where
  researchSummaryHeading := "External research summary"
  sourcesDirectoryHeading := "Source directory"
  noResultsFound := "No results found."
  unableToRetrieve := "Unable to retrieve content."
  noVideosFound := "No relevant videos found."
  plannedApproachHeading := "Planned approach"
  noPlanProvided := "No explicit high-level plan provided by the planner."
  executedRunsHeading := "Executed tool runs"
  noToolsExecuted := "No tools were executed."
  completedSuccessfully := "Completed successfully"
  failedWithError := fun error => "Failed: " ++ error
  descriptionLabel := "Description"
  statusLabel := "Status"
  noSourcesInstruction :=
    "No external sources were gathered. Answer using your existing knowledge and note the limitation."
  useSourcesInstruction := fun markers =>
    "Use the numbered sources " ++ markers ++
      " from the research summary when citing evidence. Follow the [number](url) citation format."
  fallbackSearchDescription := fun query =>
    "Search the web for up-to-date information about \"" ++ query ++ "\""
  defaultFinalInstruction :=
    "Please respond to the user using the collected information."
  fallbackResponderInstruction :=
    "Please answer the user using the collected information."

def ruLocalization : LocalizationBundle where
  researchSummaryHeading := "Сводка внешних исследований"
  sourcesDirectoryHeading := "Каталог источников"
  noResultsFound := "Результатов не найдено."
  unableToRetrieve := "Не удалось получить содержимое."
  noVideosFound := "Подходящих видео не найдено."
  plannedApproachHeading := "План действий"
  noPlanProvided := "Планировщик не предложил подробного плана."
  executedRunsHeading := "Выполненные вызовы инструментов"
  noToolsExecuted := "Инструменты не запускались."
  completedSuccessfully := "Выполнено успешно"
  failedWithError := fun error => "Сбой: " ++ error
  descriptionLabel := "Описание"
  statusLabel := "Статус"
  noSourcesInstruction :=
    "Внешние источники не найдены. Ответь, используя собственные знания, и упомяни это ограничение."
  useSourcesInstruction := fun markers =>
    "Используй пронумерованные источники " ++ markers ++
      " из сводки исследований для цитирования. Применяй формат [номер](url)."
  fallbackSearchDescription := fun query =>
    "Найти в интернете актуальную информацию о \"" ++ query ++ "\""
  defaultFinalInstruction :=
    "Пожалуйста, ответь пользователю, используя собранную информацию."
  fallbackResponderInstruction :=
    "Пожалуйста, ответь пользователю, используя собранную информацию."

def esLocalization : LocalizationBundle where
  researchSummaryHeading := "Resumen de investigación externa"
  sourcesDirectoryHeading := "Directorio de fuentes"
  noResultsFound := "No se encontraron resultados."
  unableToRetrieve := "No se pudo obtener el contenido."
  noVideosFound := "No se encontraron videos relevantes."
  plannedApproachHeading := "Plan"
  noPlanProvided := "El planificador no proporcionó un plan detallado."
  executedRunsHeading := "Herramientas ejecutadas"
  noToolsExecuted := "No se ejecutaron herramientas."
  completedSuccessfully := "Completado correctamente"
  failedWithError := fun error => "Fallo: " ++ error
  descriptionLabel := "Descripción"
  statusLabel := "Estado"
  noSourcesInstruction :=
    "No se recopilaron fuentes externas. Responde con tu conocimiento e indica esta limitación."
  useSourcesInstruction := fun markers =>
    "Usa las fuentes numeradas " ++ markers ++
      " del resumen de investigación al citar. Sigue el formato [número](url)."
  fallbackSearchDescription := fun query =>
    "Buscar en la web información actualizada sobre \"" ++ query ++ "\""
  defaultFinalInstruction :=
    "Responde al usuario utilizando la información recopilada."
  fallbackResponderInstruction :=
    "Por favor, responde al usuario usando la información recopilada."

def jaLocalization : LocalizationBundle where
  researchSummaryHeading := "外部リサーチの要約"
  sourcesDirectoryHeading := "参照元一覧"
  noResultsFound := "結果が見つかりませんでした。"
  unableToRetrieve := "コンテンツを取得できませんでした。"
  noVideosFound := "関連する動画が見つかりませんでした。"
  plannedApproachHeading := "計画"
  noPlanProvided := "プランナーから明示的な計画は提供されませんでした。"
  executedRunsHeading := "実行したツール"
  noToolsExecuted := "ツールは実行されませんでした。"
  completedSuccessfully := "正常に完了"
  failedWithError := fun error => "失敗: " ++ error
  descriptionLabel := "内容"
  statusLabel := "ステータス"
  noSourcesInstruction :=
    "外部ソースはありません。既存の知識を使って回答し、その制限に触れてください。"
  useSourcesInstruction := fun markers =>
    "引用する際はリサーチ要約の番号付きソース " ++ markers ++
      " を使い、[番号](url) 形式で記載してください。"
  fallbackSearchDescription := fun query =>
    "「" ++ query ++ "」について最新情報を検索する"
  defaultFinalInstruction :=
    "収集した情報を使ってユーザーに回答してください。"
  fallbackResponderInstruction :=
    "収集した情報を使ってユーザーに回答してください。"

def koLocalization : LocalizationBundle where
  researchSummaryHeading := "외부 조사 요약"
  sourcesDirectoryHeading := "출처 목록"
  noResultsFound := "결과가 없습니다."
  unableToRetrieve := "콘텐츠를 가져오지 못했습니다."
  noVideosFound := "관련 동영상을 찾지 못했습니다."
  plannedApproachHeading := "계획"
  noPlanProvided := "플래너가 구체적인 계획을 제공하지 않았습니다."
  executedRunsHeading := "실행한 도구"
  noToolsExecuted := "실행한 도구가 없습니다."
  completedSuccessfully := "성공적으로 완료"
  failedWithError := fun error => "실패: " ++ error
  descriptionLabel := "설명"
  statusLabel := "상태"
  noSourcesInstruction :=
    "외부 출처가 없습니다. 기존 지식을 사용해 답변하고 이 제한을 언급하세요."
  useSourcesInstruction := fun markers =>
    "인용할 때는 조사 요약의 번호가 매겨진 출처 " ++ markers ++
      "를 사용하고 [번호](url) 형식을 따르세요."
  fallbackSearchDescription := fun query =>
    "\"" ++ query ++ "\"에 대한 최신 정보를 검색합니다"
  defaultFinalInstruction :=
    "수집한 정보를 사용해 사용자에게 답변해 주세요."
  fallbackResponderInstruction :=
    "수집한 정보를 사용해 사용자에게 답변해 주세요."

def zhLocalization : LocalizationBundle where
  researchSummaryHeading := "外部研究摘要"
  sourcesDirectoryHeading := "来源目录"
  noResultsFound := "未找到结果。"
  unableToRetrieve := "无法获取内容。"
  noVideosFound := "未找到相关视频。"
  plannedApproachHeading := "计划"
  noPlanProvided := "规划器未提供明确的计划。"
  executedRunsHeading := "已执行的工具"
  noToolsExecuted := "未执行任何工具。"
  completedSuccessfully := "成功完成"
  failedWithError := fun error => "失败：" ++ error
  descriptionLabel := "说明"
  statusLabel := "状态"
  noSourcesInstruction :=
    "没有收集到外部来源。请根据现有知识回答，并说明这一限制。"
  useSourcesInstruction := fun markers =>
    "引用时请使用研究摘要中的编号来源 " ++ markers ++ "，采用 [编号](url) 格式。"
  fallbackSearchDescription := fun query =>
    "搜索“" ++ query ++ "”的最新信息"
  defaultFinalInstruction := "请使用收集到的信息回答用户。"
  fallbackResponderInstruction := "请使用收集到的信息回答用户。"

def frLocalization : LocalizationBundle where
  researchSummaryHeading := "Résumé de recherche externe"
  sourcesDirectoryHeading := "Répertoire des sources"
  noResultsFound := "Aucun résultat trouvé."
  unableToRetrieve := "Impossible de récupérer le contenu."
  noVideosFound := "Aucune vidéo pertinente trouvée."
  plannedApproachHeading := "Approche planifiée"
  noPlanProvided := "Le planificateur n’a pas fourni de plan détaillé."
  executedRunsHeading := "Outils exécutés"
  noToolsExecuted := "Aucun outil n’a été exécuté."
  completedSuccessfully := "Terminé avec succès"
  failedWithError := fun error => "Échec : " ++ error
  descriptionLabel := "Description"
  statusLabel := "Statut"
  noSourcesInstruction :=
    "Aucune source externe n’a été collectée. Répondez avec vos connaissances et mentionnez cette limite."
  useSourcesInstruction := fun markers =>
    "Utilisez les sources numérotées " ++ markers ++
      " du résumé de recherche pour citer vos preuves. Respectez le format [numéro](url)."
  fallbackSearchDescription := fun query =>
    "Rechercher des informations à jour sur « " ++ query ++ " »"
  defaultFinalInstruction :=
    "Veuillez répondre à l’utilisateur en vous appuyant sur les informations recueillies."
  fallbackResponderInstruction :=
    "Répondez à l’utilisateur en vous appuyant sur les informations recueillies."

def deLocalization : LocalizationBundle where
  researchSummaryHeading := "Zusammenfassung externer Recherche"
  sourcesDirectoryHeading := "Quellenverzeichnis"
  noResultsFound := "Keine Ergebnisse gefunden."
  unableToRetrieve := "Inhalt konnte nicht abgerufen werden."
  noVideosFound := "Keine passenden Videos gefunden."
  plannedApproachHeading := "Geplanter Ansatz"
  noPlanProvided := "Der Planer hat keinen detaillierten Plan bereitgestellt."
  executedRunsHeading := "Ausgeführte Tools"
  noToolsExecuted := "Es wurden keine Tools ausgeführt."
  completedSuccessfully := "Erfolgreich abgeschlossen"
  failedWithError := fun error => "Fehlgeschlagen: " ++ error
  descriptionLabel := "Beschreibung"
  statusLabel := "Status"
  noSourcesInstruction :=
    "Es wurden keine externen Quellen gesammelt. Antworte mit deinem vorhandenen Wissen und erwähne diese Einschränkung."
  useSourcesInstruction := fun markers =>
    "Verwende beim Zitieren die nummerierten Quellen " ++ markers ++
      " aus der Recherche-Zusammenfassung. Nutze das Format [Nummer](URL)."
  fallbackSearchDescription := fun query =>
    "Im Web nach aktuellen Informationen zu „" ++ query ++ "“ suchen"
  defaultFinalInstruction :=
    "Bitte beantworte die Nutzerfrage mit den gesammelten Informationen."
  fallbackResponderInstruction :=
    "Bitte beantworte die Frage des Nutzers mit den gesammelten Informationen."

def itLocalization : LocalizationBundle where
  researchSummaryHeading := "Sintesi della ricerca esterna"
  sourcesDirectoryHeading := "Elenco delle fonti"
  noResultsFound := "Nessun risultato trovato."
  unableToRetrieve := "Impossibile recuperare il contenuto."
  noVideosFound := "Nessun video pertinente trovato."
  plannedApproachHeading := "Approccio pianificato"
  noPlanProvided := "Il pianificatore non ha fornito un piano dettagliato."
  executedRunsHeading := "Strumenti eseguiti"
  noToolsExecuted := "Nessuno strumento è stato eseguito."
  completedSuccessfully := "Completato con successo"
  failedWithError := fun error => "Non riuscito: " ++ error
  descriptionLabel := "Descrizione"
  statusLabel := "Stato"
  noSourcesInstruction :=
    "Non sono state raccolte fonti esterne. Rispondi con le tue conoscenze e segnala questa limitazione."
  useSourcesInstruction := fun markers =>
    "Usa le fonti numerate " ++ markers ++
      " presenti nella sintesi della ricerca quando citi le prove. Segui il formato [numero](url)."
  fallbackSearchDescription := fun query =>
    "Cerca sul web informazioni aggiornate su \"" ++ query ++ "\""
  defaultFinalInstruction :=
    "Rispondi all’utente utilizzando le informazioni raccolte."
  fallbackResponderInstruction :=
    "Rispondi all" ++ asciiApos ++ "utente utilizzando le informazioni raccolte."

def ptLocalization : LocalizationBundle where
  researchSummaryHeading := "Resumo de pesquisa externa"
  sourcesDirectoryHeading := "Diretório de fontes"
  noResultsFound := "Nenhum resultado encontrado."
  unableToRetrieve := "Não foi possível obter o conteúdo."
  noVideosFound := "Nenhum vídeo relevante encontrado."
  plannedApproachHeading := "Abordagem planejada"
  noPlanProvided := "O planejador não forneceu um plano detalhado."
  executedRunsHeading := "Ferramentas executadas"
  noToolsExecuted := "Nenhuma ferramenta foi executada."
  completedSuccessfully := "Concluído com sucesso"
  failedWithError := fun error => "Falhou: " ++ error
  descriptionLabel := "Descrição"
  statusLabel := "Status"
  noSourcesInstruction :=
    "Nenhuma fonte externa foi coletada. Responda usando seu conhecimento e mencione essa limitação."
  useSourcesInstruction := fun markers =>
    "Use as fontes numeradas " ++ markers ++
      " do resumo de pesquisa ao citar evidências. Siga o formato [número](url)."
  fallbackSearchDescription := fun query =>
    "Pesquisar na web por informações atualizadas sobre \"" ++ query ++ "\""
  defaultFinalInstruction :=
    "Responda ao usuário usando as informações coletadas."
  fallbackResponderInstruction :=
    "Responda ao usuário utilizando as informações coletadas."

def arLocalization : LocalizationBundle where
  researchSummaryHeading := "ملخص البحث الخارجي"
  sourcesDirectoryHeading := "دليل المصادر"
  noResultsFound := "لم يتم العثور على نتائج."
  unableToRetrieve := "تعذّر جلب المحتوى."
  noVideosFound := "لم يتم العثور على مقاطع فيديو ذات صلة."
  plannedApproachHeading := "النهج المخطط"
  noPlanProvided := "لم يقدّم المخطِّط خطة تفصيلية."
  executedRunsHeading := "الأدوات التي تم تنفيذها"
  noToolsExecuted := "لم يتم تنفيذ أي أدوات."
  completedSuccessfully := "اكتملت بنجاح"
  failedWithError := fun error => "فشل: " ++ error
  descriptionLabel := "الوصف"
  statusLabel := "الحالة"
  noSourcesInstruction :=
    "لم يتم جمع أي مصادر خارجية. أجب باستخدام معرفتك الحالية واذكر هذا القيد."
  useSourcesInstruction := fun markers =>
    "استخدم المصادر المرقمة " ++ markers ++
      " من ملخص البحث عند الاستشهاد بالأدلة. اتبع تنسيق [الرقم](الرابط)."
  fallbackSearchDescription := fun query =>
    "ابحث على الويب عن أحدث المعلومات حول \"" ++ query ++ "\""
  defaultFinalInstruction :=
    "يرجى الرد على المستخدم باستخدام المعلومات التي جُمعت."
  fallbackResponderInstruction :=
    "يرجى الرد على المستخدم باستخدام المعلومات التي تم جمعها."

/-- The `LOCALIZATIONS` record, keyed by language tag. -/
def LOCALIZATIONS : SupportedLanguage → LocalizationBundle
  | .en => enLocalization
  | .ru => ruLocalization
  | .es => esLocalization
  | .ja => jaLocalization
  | .ko => koLocalization
  | .zh => zhLocalization
  | .fr => frLocalization
  | .de => deLocalization
  | .it => itLocalization
  | .pt => ptLocalization
  | .ar => arLocalization

/-- `getLocalization`: the `?? LOCALIZATIONS.en` fallback of the source
cannot fire on the closed tag type. -/
def getLocalization (language : SupportedLanguage) : LocalizationBundle :=
  LOCALIZATIONS language

/-! ## Language detection (tool-execution.ts lines 981-1055)

The regex tests are embedded directly: character-class tests scan the
character list, the case-insensitive flag is modelled by `jsFoldChar`
(simple lower-casing of the Latin letters the patterns use), and the
`\b`-bounded word alternations by an explicit scan with JS `\b` semantics
(word characters are ASCII `[A-Za-z0-9_]`). -/

def charInRange (lo hi : Nat) (c : Char) : Bool :=
  lo ≤ c.toNat && c.toNat ≤ hi

def textHasRange (lo hi : Nat) (t : String) : Bool :=
  t.data.any (charInRange lo hi)

def textHasCharIn (cs : List Char) (t : String) : Bool :=
  t.data.any fun c => cs.contains c

/-- JS case-insensitive canonicalization restricted to the letters used by
the detection patterns: ASCII A-Z, the Latin-1 uppercase range À..Þ
(except ×), Œ and Ÿ. -/
def jsFoldChar (c : Char) : Char :=
  if 65 ≤ c.toNat && c.toNat ≤ 90 then Char.ofNat (c.toNat + 32)
  else if 192 ≤ c.toNat && c.toNat ≤ 222 && c.toNat != 215 then Char.ofNat (c.toNat + 32)
  else if c.toNat = 338 then Char.ofNat 339
  else if c.toNat = 376 then Char.ofNat 255
  else c

def listContainsSub (needle : List Char) : List Char → Bool
  | [] => needle.isPrefixOf []
  | c :: rest => needle.isPrefixOf (c :: rest) || listContainsSub needle rest

/-- Case-insensitive substring test (for `/ção/i` and `/ções/i`). -/
def foldedContainsSub (sub : String) (t : String) : Bool :=
  listContainsSub sub.data (t.data.map jsFoldChar)

def isWordChar (c : Char) : Bool :=
  ('a' ≤ c && c ≤ 'z') || ('A' ≤ c && c ≤ 'Z') || ('0' ≤ c && c ≤ '9') || c = '_'

def optWordChar : Option Char → Bool
  | some c => isWordChar c
  | _ => false

/-- JS `\b`: a word boundary lies between two positions exactly when one
side is a word character and the other is not (out of range counts as
non-word). -/
def boundaryAt (a b : Option Char) : Bool :=
  optWordChar a != optWordChar b

/-- Does the (lower-case) pattern word `w`, bracketed by `\b` on both
sides, match at the current position of the text `t` (whose preceding
character is `prev`)? -/
def matchWordAt (w : List Char) (prev : Option Char) (t : List Char) : Bool :=
  ((t.take w.length).map jsFoldChar == w) &&
  boundaryAt prev t.head? &&
  boundaryAt (t.take w.length).getLast? (t.drop w.length).head?

def scanWordFrom (w : List Char) : Option Char → List Char → Bool
  | prev, t =>
    matchWordAt w prev t ||
    match t with
    | [] => false
    | c :: rest => scanWordFrom w (some c) rest

/-- `/(?:\b(?:w1|…|wn)\b)/i.test(text)`. -/
def wordListTest (ws : List String) (text : String) : Bool :=
  ws.any fun w => scanWordFrom w.data Option.none text.data

def ptWords : List String :=
  ["não", "nao", "esta", "está", "para", "com", "dos", "das", "nos", "nas",
   "uma", "umas", "num", "numa", "será", "serao"]

def itWords : List String :=
  ["il", "lo", "la", "gli", "le", "uno", "una", "degli", "delle", "per",
   "con", "non", "sono", "nel", "nella"]

def frWords : List String :=
  ["le", "la", "les", "des", "une", "un", "pour", "avec", "sans", "est",
   "qui", "pas", "dans", "sur"]

def deWords : List String :=
  ["der", "die", "das", "und", "nicht", "mit", "ein", "eine", "auf", "für",
   "zum", "zur", "den", "dem"]

def esWords : List String :=
  ["el", "la", "los", "las", "un", "una", "de", "que", "para", "con", "por",
   "del", "al", "y", "en", "se"]

/-- `detectLanguageFromText` (tool-execution.ts lines 981-1055). -/
def detectLanguageFromText (text : String) : SupportedLanguage :=
  if text = "" then .en
  else if textHasRange 0x400 0x4FF text then .ru
  else if textHasRange 0x4E00 0x9FFF text then .zh
  else if textHasRange 0x3040 0x30FF text then .ja
  else if textHasRange 0xAC00 0xD7A3 text then .ko
  else if textHasRange 0x600 0x6FF text then .ar
  else
    let asciiOnly := text.data.all fun c => c.toNat ≤ 127
    if !asciiOnly &&
        (textHasCharIn ['ã', 'õ', 'Ã', 'Õ'] text ||
          foldedContainsSub "ção" text || foldedContainsSub "ções" text) then .pt
    else if !asciiOnly &&
        (textHasCharIn ['œ', 'æ', 'Œ', 'Æ'] text ||
          textHasCharIn
            ['à', 'â', 'ç', 'é', 'è', 'ê', 'ë', 'î', 'ï', 'ô', 'û', 'ù', 'ü', 'ÿ',
             'À', 'Â', 'Ç', 'É', 'È', 'Ê', 'Ë', 'Î', 'Ï', 'Ô', 'Û', 'Ù', 'Ü', 'Ÿ'] text) then .fr
    else if !asciiOnly &&
        textHasCharIn ['à', 'è', 'ì', 'ò', 'ù', 'À', 'È', 'Ì', 'Ò', 'Ù'] text then .it
    else if wordListTest ptWords text then .pt
    else if wordListTest itWords text then .it
    else if wordListTest frWords text then .fr
    else if wordListTest deWords text then .de
    else if wordListTest esWords text then .es
    else .en

/-! ## Executed steps, sources and the execution summarizer
(tool-execution.ts lines 1110-1129 and 1351-1558)

`ExecutedStep.result` is `any` in the source; the summarizer only ever
inspects it through the casts `result as SearchResults | null` (an object
with a `results` array) and `result?.videos`, so the embedding distinguishes
exactly these shapes.  `error?: string` becomes `Option String`; the JS
truthiness tests `if (step.error)`, `source.title ?`, `snippet ?` are
embedded as the corresponding emptiness checks (the only falsy string is
the empty one). -/

inductive ToolName
  | search
  | retrieve
  | videoSearch
deriving DecidableEq, Repr, BEq

def toolNameStr : ToolName → String
  | .search => "search"
  | .retrieve => "retrieve"
  | .videoSearch => "videoSearch"

structure SearchResultItem where
  title : String
  url : String
  content : String
deriving DecidableEq, Repr

structure VideoItem where
  title : String
  link : String
  snippet : Option String
deriving DecidableEq, Repr

inductive StepResult
  | nullRes
  | searchLike (results : List SearchResultItem)
  | videoLike (videos : List VideoItem)
deriving DecidableEq, Repr

structure ExecutedStep where
  id : String
  tool : ToolName
  description : String
  parameters : List (String × JVal)
  result : StepResult
  error : Option String
deriving DecidableEq, Repr

structure SourceReference where
  marker : String
  url : String
  title : Option String
  stepId : String
deriving DecidableEq, Repr

structure ExecutionSummary where
  summary : String
  sources : List SourceReference
deriving DecidableEq, Repr

/-- `createMarker`. -/
def createMarker (index : Nat) : String :=
  "[" ++ natRepr index ++ "]"

/-- The result of one formatter: the rendered block, the source references
pushed into the shared `sources` array (in push order), and the returned
`nextIndex`. -/
structure FormatOut where
  text : String
  added : List SourceReference
  nextIndex : Nat
deriving DecidableEq, Repr

/-- `formatSearchSummary` (lines 1426-1461). -/
def formatSearchSummary (step : ExecutedStep) (startIndex : Nat)
    (localization : LocalizationBundle) : FormatOut :=
  match step.result with
  | StepResult.searchLike results =>
    if results.length = 0 then
      ⟨"• " ++ step.description ++ "\n  – " ++ localization.noResultsFound, [], startIndex⟩
    else
      let topResults := results.take 3
      let added := topResults.enum.map fun p =>
        { marker := createMarker (startIndex + p.1), url := p.2.url,
          title := some p.2.title, stepId := step.id }
      let formatted := topResults.enum.map fun p =>
        let marker := createMarker (startIndex + p.1)
        let snippet := jsSlice (jsCollapseWs p.2.content) 160
        "  " ++ marker ++ " " ++ p.2.title ++ " – " ++ p.2.url ++ "\n    " ++ snippet ++
          (if p.2.content.length > 160 then "…" else "")
      ⟨"• " ++ step.description ++ "\n" ++ String.intercalate "\n" formatted,
        added, startIndex + topResults.length⟩
  | _ =>
    ⟨"• " ++ step.description ++ "\n  – " ++ localization.noResultsFound, [], startIndex⟩

/-- `formatRetrieveSummary` (lines 1463-1493). -/
def formatRetrieveSummary (step : ExecutedStep) (startIndex : Nat)
    (localization : LocalizationBundle) : FormatOut :=
  match step.result with
  | StepResult.searchLike (item :: _) =>
    let marker := createMarker startIndex
    let snippet := jsSlice (jsCollapseWs item.content) 200
    ⟨"• " ++ step.description ++ "\n  " ++ marker ++ " " ++ item.url ++ "\n    " ++ snippet ++
        (if item.content.length > 200 then "…" else ""),
      [{ marker := marker, url := item.url, title := some item.title, stepId := step.id }],
      startIndex + 1⟩
  | _ =>
    ⟨"• " ++ step.description ++ "\n  – " ++ localization.unableToRetrieve, [], startIndex⟩

/-- The `video.snippet && video.snippet.length > 160` ellipsis condition. -/
def videoSnippetEllipsis : Option String → Bool
  | some s => s != "" && s.length > 160
  | _ => false

/-- `formatVideoSummary` (lines 1495-1538). -/
def formatVideoSummary (step : ExecutedStep) (startIndex : Nat)
    (localization : LocalizationBundle) : FormatOut :=
  match step.result with
  | StepResult.videoLike videos =>
    if videos.length = 0 then
      ⟨"• " ++ step.description ++ "\n  – " ++ localization.noVideosFound, [], startIndex⟩
    else
      let limitedVideos := videos.take 3
      let added := limitedVideos.enum.map fun p =>
        { marker := createMarker (startIndex + p.1), url := p.2.link,
          title := some p.2.title, stepId := step.id }
      let formatted := limitedVideos.enum.map fun p =>
        let marker := createMarker (startIndex + p.1)
        let snippet := jsSlice (jsCollapseWs ((p.2.snippet).getD "")) 160
        "  " ++ marker ++ " " ++ p.2.title ++ " – " ++ p.2.link ++
          (if snippet != "" then
            "\n    " ++ snippet ++ (if videoSnippetEllipsis p.2.snippet then "…" else "")
          else "")
      ⟨"• " ++ step.description ++ "\n" ++ String.intercalate "\n" formatted,
        added, startIndex + limitedVideos.length⟩
  | _ =>
    ⟨"• " ++ step.description ++ "\n  – " ++ localization.noVideosFound, [], startIndex⟩

/-- `formatSourcesDirectory` (lines 1540-1554); the `source.title ?` test is
JS truthiness, so an empty title is omitted like a missing one. -/
def formatSourcesDirectory (sources : List SourceReference)
    (localization : LocalizationBundle) : String :=
  if sources.length = 0 then ""
  else
    let lines := sources.map fun source =>
      let titlePart :=
        match source.title with
        | some t => if t != "" then t ++ " – " else ""
        | _ => ""
      source.marker ++ " " ++ titlePart ++ source.url
    localization.sourcesDirectoryHeading ++ ":\n" ++ String.intercalate "\n" lines

/-- The `switch (step.tool)` dispatch of `buildExecutionSummary`. -/
def formatStepDispatch (localization : LocalizationBundle) (step : ExecutedStep)
    (startIndex : Nat) : FormatOut :=
  match step.tool with
  | ToolName.search => formatSearchSummary step startIndex localization
  | ToolName.retrieve => formatRetrieveSummary step startIndex localization
  | ToolName.videoSearch => formatVideoSummary step startIndex localization

/-- One iteration of the `steps.map` in `buildExecutionSummary` (lines
1358-1403): the `if (step.error)` guard is JS truthiness, so an empty error
string falls through to the tool dispatch. -/
def formatStep (localization : LocalizationBundle) (step : ExecutedStep)
    (startIndex : Nat) : FormatOut :=
  match step.error with
  | some msg =>
    if msg = "" then formatStepDispatch localization step startIndex
    else
      ⟨"• " ++ step.description ++ "\n  ⚠️ " ++ localization.failedWithError msg,
        [], startIndex⟩
  | _ => formatStepDispatch localization step startIndex

/-- The whole `steps.map` pass, threading `nextMarkerIndex` and collecting
the pushes into `sources` in order. -/
def summarizePass (localization : LocalizationBundle) :
    List ExecutedStep → Nat → List String × List SourceReference
  | [], _ => ([], [])
  | step :: rest, startIndex =>
    let out := formatStep localization step startIndex
    let tail := summarizePass localization rest out.nextIndex
    (out.text :: tail.1, out.added ++ tail.2)

/-- `buildExecutionSummary` (lines 1351-1424). -/
def buildExecutionSummary (steps : List ExecutedStep)
    (localization : LocalizationBundle) : ExecutionSummary :=
  let pass := summarizePass localization steps 1
  let sources := pass.2
  let filtered := (pass.1.filter fun part => part != "").map jsTrim
  let sourcesDirectory := formatSourcesDirectory sources localization
  let summaryBody :=
    if filtered.length > 0 then String.intercalate "\n\n" filtered
    else if steps.length = 0 then localization.noToolsExecuted
    else localization.noResultsFound
  { summary :=
      localization.researchSummaryHeading ++ ":\n\n" ++ summaryBody ++
        (if sourcesDirectory != "" then "\n\n" ++ sourcesDirectory else "")
    sources := sources }

/-! ## Conversation messages and the responder builders
(tool-execution.ts lines 1560-1682, tool planner `getLastUserText`) -/

inductive Role
  | system
  | user
  | assistant
deriving DecidableEq, Repr

inductive MessagePart
  | textPart (text : String)
  | otherPart (kind : String)
deriving DecidableEq, Repr

inductive MessageContent
  | str (s : String)
  | parts (ps : List MessagePart)
deriving DecidableEq, Repr

structure CoreMessage where
  role : Role
  content : MessageContent
deriving DecidableEq, Repr

/-- The `content.map(part => part.type === 'text' ? part.text : '').filter(Boolean)`
projection of `getLastUserText`. -/
def messageTextParts (ps : List MessagePart) : List String :=
  (ps.map fun part =>
    match part with
    | MessagePart.textPart t => t
    | MessagePart.otherPart _ => "").filter fun s => s != ""

def lastUserTextAux : List CoreMessage → String
  | [] => ""
  | message :: rest =>
    if message.role = Role.user then
      match message.content with
      | MessageContent.str s => s
      | MessageContent.parts ps =>
        let textParts := messageTextParts ps
        if textParts.length > 0 then String.intercalate "\n" textParts
        else lastUserTextAux rest
    else lastUserTextAux rest

/-- `getLastUserText` (src/unnamed/part_005 lines 88-108): walk the messages
from the end; a user message with string content returns it even when
empty, a parts message returns the newline-join of its non-empty text
parts, otherwise the walk continues. -/
def getLastUserText (messages : List CoreMessage) : String :=
  lastUserTextAux messages.reverse

/-- `getPlanFinalInstruction` (lines 1597-1608). -/
def getPlanFinalInstruction (plan : ToolPlan)
    (localization : LocalizationBundle) : String :=
  let trimmed := jsTrim plan.finalResponseInstruction
  if trimmed = "" || trimmed = DEFAULT_FINAL_RESPONSE_INSTRUCTION then
    localization.defaultFinalInstruction
  else trimmed

/-- `step.error ? localization.failedWithError(step.error) :
localization.completedSuccessfully` (JS truthiness on the error string). -/
def stepStatusText (localization : LocalizationBundle) (step : ExecutedStep) : String :=
  match step.error with
  | some e => if e = "" then localization.completedSuccessfully else localization.failedWithError e
  | _ => localization.completedSuccessfully

/-- `buildPlanAndExecutionOverview` (lines 1610-1637). -/
def buildPlanAndExecutionOverview (plan : ToolPlan) (executedSteps : List ExecutedStep)
    (localization : LocalizationBundle) : String :=
  let planLines := plan.plan.enum.map fun p =>
    natRepr (p.1 + 1) ++ ". " ++ p.2.step ++ "\n   " ++ p.2.detail
  let invocationLines := executedSteps.map fun step =>
    "- " ++ step.id ++ " (" ++ toolNameStr step.tool ++ ")\n  " ++
      localization.descriptionLabel ++ ": " ++ step.description ++ "\n  " ++
      localization.statusLabel ++ ": " ++ stepStatusText localization step
  let plannedSection :=
    if planLines.length > 0 then
      String.intercalate "\n" ((localization.plannedApproachHeading ++ ":") :: planLines)
    else localization.plannedApproachHeading ++ ":\n" ++ localization.noPlanProvided
  let executedSection :=
    if invocationLines.length > 0 then
      String.intercalate "\n" ((localization.executedRunsHeading ++ ":") :: invocationLines)
    else localization.executedRunsHeading ++ ":\n" ++ localization.noToolsExecuted
  plannedSection ++ "\n\n" ++ executedSection

/-- `buildFinalResponderInstruction` (lines 1639-1657). -/
def buildFinalResponderInstruction (baseInstruction : String)
    (sources : List SourceReference) (localization : LocalizationBundle) : String :=
  if sources.length = 0 then
    baseInstruction ++ "\n\n" ++ localization.noSourcesInstruction
  else
    let markers := String.intercalate ", " (sources.map fun source => source.marker)
    baseInstruction ++ "\n\n" ++ localization.useSourcesInstruction markers

/-- `buildFallbackOverview` (lines 1659-1671). -/
def buildFallbackOverview (executedSteps : List ExecutedStep)
    (localization : LocalizationBundle) : String :=
  let details := executedSteps.map fun step =>
    "- " ++ step.description ++ "\n  " ++ localization.statusLabel ++ ": " ++
      stepStatusText localization step
  localization.executedRunsHeading ++ ":\n" ++ String.intercalate "\n" details

/-- `createToolResponderMessages` (lines 1560-1595). -/
def createToolResponderMessages (plan : ToolPlan) (executedSteps : List ExecutedStep)
    (summary : ExecutionSummary) (localization : LocalizationBundle)
    (finalInstruction : String) : List CoreMessage :=
  [ { role := Role.assistant,
      content := MessageContent.str (buildPlanAndExecutionOverview plan executedSteps localization) },
    { role := Role.assistant, content := MessageContent.str summary.summary },
    { role := Role.user,
      content := MessageContent.str
        (buildFinalResponderInstruction finalInstruction summary.sources localization) } ]

/-! ## Invocation parameter validation
(tool-execution.ts lines 1131-1148 and 1276-1317)

The zod schemas `searchSchema` and `retrieveSchema` live in
src/lib/schema/search and src/lib/schema/retrieve, which are not among the
provided sources; they are modelled from the spec (§4.3).  A JS parameter
object is an association list with distinct keys; zod `.optional()` accepts
an absent key, rejects `null`, and `.parse` returns an object carrying
exactly the recognized keys that were present. -/

/-- Modelled from the spec: the validated search-tool parameters
(src/lib/schema/search is not in the provided sources) — `query` required
non-empty text, `max_results` optional integer, `search_depth` optional
enum `basic`/`advanced`, `include_domains`/`exclude_domains` optional
lists of domain strings. -/
structure SearchParameters where
  query : String
  max_results : Option Int
  search_depth : Option String
  include_domains : Option (List String)
  exclude_domains : Option (List String)
deriving DecidableEq, Repr

/-- Modelled from the spec: the validated retrieve-tool parameters
(src/lib/schema/retrieve is not in the provided sources) — `url` required. -/
structure RetrieveParameters where
  url : String
deriving DecidableEq, Repr

/-- The validated video-search parameters (`videoSearchParameterParser`,
lines 1133-1139, assembled from the search schema's fields plus its own
`search_depth` enum). -/
structure VideoSearchParameters where
  query : String
  max_results : Option Int
  search_depth : Option String
  include_domains : Option (List String)
  exclude_domains : Option (List String)
deriving DecidableEq, Repr

def lookupParam (parameters : List (String × JVal)) (key : String) : Option JVal :=
  (parameters.find? fun kv => kv.1 == key).map fun kv => kv.2

/-- An optional integer field: absent is fine, anything present must be a
number. `some none` = absent, `none` = validation failure. -/
def optIntField (parameters : List (String × JVal)) (key : String) : Option (Option Int) :=
  match lookupParam parameters key with
  | Option.none => some Option.none
  | some (JVal.jnum n) => some (some n)
  | some _ => Option.none

/-- An optional `basic`/`advanced` enum field. -/
def optDepthField (parameters : List (String × JVal)) (key : String) : Option (Option String) :=
  match lookupParam parameters key with
  | Option.none => some Option.none
  | some (JVal.jstr s) =>
    if s = "basic" || s = "advanced" then some (some s) else Option.none
  | some _ => Option.none

/-- An optional list-of-strings field. -/
def optStrListField (parameters : List (String × JVal)) (key : String) :
    Option (Option (List String)) :=
  match lookupParam parameters key with
  | Option.none => some Option.none
  | some (JVal.jstrArr l) => some (some l)
  | some _ => Option.none

/-- Modelled from the spec: `searchSchema.parse` — fails on a missing,
non-string or empty `query` or on any ill-typed optional field. -/
def searchParamsParse (parameters : List (String × JVal)) : Option SearchParameters :=
  match lookupParam parameters "query" with
  | some (JVal.jstr q) =>
    if q = "" then Option.none
    else
      match optIntField parameters "max_results",
          optDepthField parameters "search_depth",
          optStrListField parameters "include_domains",
          optStrListField parameters "exclude_domains" with
      | some mr, some sd, some incl, some excl =>
        some { query := q, max_results := mr, search_depth := sd,
               include_domains := incl, exclude_domains := excl }
      | _, _, _, _ => Option.none
  | _ => Option.none

/-- Modelled from the spec: `retrieveSchema.parse` — fails when `url` is
missing or not a string. -/
def retrieveParamsParse (parameters : List (String × JVal)) : Option RetrieveParameters :=
  match lookupParam parameters "url" with
  | some (JVal.jstr u) => some { url := u }
  | _ => Option.none

/-- `videoSearchParameterParser.parse`: the same field validators as the
search schema (its `query`, `max_results` and domain-list fields are reused
from `searchSchema.shape`). -/
def videoSearchParamsParse (parameters : List (String × JVal)) : Option VideoSearchParameters :=
  match lookupParam parameters "query" with
  | some (JVal.jstr q) =>
    if q = "" then Option.none
    else
      match optIntField parameters "max_results",
          optDepthField parameters "search_depth",
          optStrListField parameters "include_domains",
          optStrListField parameters "exclude_domains" with
      | some mr, some sd, some incl, some excl =>
        some { query := q, max_results := mr, search_depth := sd,
               include_domains := incl, exclude_domains := excl }
      | _, _, _, _ => Option.none
  | _ => Option.none

inductive ParsedToolParameters
  | searchP (p : SearchParameters)
  | retrieveP (p : RetrieveParameters)
  | videoSearchP (p : VideoSearchParameters)
deriving DecidableEq, Repr

/-- `parseInvocationParameters` (lines 1290-1317): dispatch on the tool and
validate; a zod throw is a `none` (the invocation is skipped). -/
def parseInvocationParameters (invocation : ToolInvocation) :
    Option ParsedToolParameters :=
  match invocation.tool with
  | ToolKind.search =>
    (searchParamsParse invocation.parameters).map ParsedToolParameters.searchP
  | ToolKind.retrieve =>
    (retrieveParamsParse invocation.parameters).map ParsedToolParameters.retrieveP
  | ToolKind.videoSearch =>
    (videoSearchParamsParse invocation.parameters).map ParsedToolParameters.videoSearchP
  | ToolKind.none => Option.none

def parsedToolName : ParsedToolParameters → ToolName
  | ParsedToolParameters.searchP _ => ToolName.search
  | ParsedToolParameters.retrieveP _ => ToolName.retrieve
  | ParsedToolParameters.videoSearchP _ => ToolName.videoSearch

/-- The record carried by a validated parameter object (`parsed.parameters`
as serialized into the progress events and the executed step): exactly the
recognized fields that were present. -/
def searchParamsRecord (p : SearchParameters) : List (String × JVal) :=
  [("query", JVal.jstr p.query)] ++
    (match p.max_results with | some n => [("max_results", JVal.jnum n)] | _ => []) ++
    (match p.search_depth with | some s => [("search_depth", JVal.jstr s)] | _ => []) ++
    (match p.include_domains with | some l => [("include_domains", JVal.jstrArr l)] | _ => []) ++
    (match p.exclude_domains with | some l => [("exclude_domains", JVal.jstrArr l)] | _ => [])

def videoSearchParamsRecord (p : VideoSearchParameters) : List (String × JVal) :=
  [("query", JVal.jstr p.query)] ++
    (match p.max_results with | some n => [("max_results", JVal.jnum n)] | _ => []) ++
    (match p.search_depth with | some s => [("search_depth", JVal.jstr s)] | _ => []) ++
    (match p.include_domains with | some l => [("include_domains", JVal.jstrArr l)] | _ => []) ++
    (match p.exclude_domains with | some l => [("exclude_domains", JVal.jstrArr l)] | _ => [])

def parsedParamsRecord : ParsedToolParameters → List (String × JVal)
  | ParsedToolParameters.searchP p => searchParamsRecord p
  | ParsedToolParameters.retrieveP p => [("url", JVal.jstr p.url)]
  | ParsedToolParameters.videoSearchP p => videoSearchParamsRecord p

/-! ## The sequential execution loop and the orchestrator
(tool-execution.ts lines 1066-1100, 1150-1274, 1684-1780)

External effects are parameters of the embedding: the outcome of one
`runTool` call (the tools are external collaborators) is an oracle indexed
by the number of tool calls made so far, `generateId` is an id-generator
function over the same index, and the `dataStream` side channel is the
returned event list.  A JS throw is a `Thrown` value: either an `Error`
instance with its message, or any other thrown value. -/

inductive Thrown
  | errObj (message : String)
  | nonError (payload : String)
deriving DecidableEq, Repr

/-- `error instanceof Error ? error.message : 'Unknown tool execution error'`
(lines 1216-1217). -/
def thrownToMessage : Thrown → String
  | Thrown.errObj message => message
  | Thrown.nonError _ => "Unknown tool execution error"

/-- The outcome of one external tool call. -/
inductive ToolOutcome
  | ok (result : StepResult)
  | thrown (t : Thrown)
deriving DecidableEq, Repr

/-- What a `result`-state event carries: the serialized result or the error
message. -/
inductive EvOutcome
  | okRes (result : StepResult)
  | errRes (message : String)
deriving DecidableEq, Repr

/-- One write to the progress side channel: `callEv` is the
`dataStream.writeData` of a `state: 'call'` record, `resultEv` the
`dataStream.writeMessageAnnotation` of the corresponding
`state: 'result'` record (which spreads the call record and so repeats its
`toolCallId`, `toolName`, `args` and `description`). -/
inductive ProgressEvent
  | callEv (toolCallId : String) (toolName : String)
      (args : List (String × JVal)) (description : Option String)
  | resultEv (toolCallId : String) (toolName : String)
      (args : List (String × JVal)) (description : Option String) (outcome : EvOutcome)
deriving DecidableEq, Repr

/-- The structured payload of the `role: 'data'` message
(`stringifyResultWithSources` is modelled structurally: it is injective on
these payloads). -/
inductive AnnPayload
  | planned (plan : List PlanStep) (toolInvocations : List ToolInvocation)
      (finalResponseInstruction : String) (steps : List ExecutedStep)
      (sources : List SourceReference)
  | fallback (result : StepResult) (steps : List ExecutedStep)
      (finalResponseInstruction : String) (sources : List SourceReference)
deriving DecidableEq, Repr

/-- The `toolCallDataAnnotation` data message (a `tool_call` record in
`state: 'result'`). -/
structure DataAnn where
  toolCallId : String
  toolName : String
  args : Option (List (String × JVal))
  payload : AnnPayload
deriving DecidableEq, Repr

/-- `ToolExecutionResult`; `toolCallDataAnn` embeds the source's
`toolCallDataAnnotation` field. -/
structure ToolExecutionResult where
  toolCallDataAnn : Option DataAnn
  toolCallMessages : List CoreMessage
deriving DecidableEq, Repr

/-- The `for (const invocation of invocations)` loop of
`executePlannedTools` (lines 1173-1239): invocations failing parameter
validation are skipped without any emission; a validated invocation first
emits its call event, runs the tool, then emits the result event and
records the executed step.  `n` counts the tool calls made so far (it
indexes both the oracle and the id generator). -/
def runPlannedLoop (oracle : Nat → ToolOutcome) (idGen : Nat → String) :
    List ToolInvocation → Nat → List ExecutedStep × List ProgressEvent
  | [], _ => ([], [])
  | inv :: rest, n =>
    match parseInvocationParameters inv with
    | Option.none => runPlannedLoop oracle idGen rest n
    | some parsed =>
      let toolCallId := "call_" ++ idGen n
      let name := toolNameStr (parsedToolName parsed)
      let args := parsedParamsRecord parsed
      match oracle n with
      | ToolOutcome.ok result =>
        let step : ExecutedStep :=
          { id := inv.id, tool := parsedToolName parsed, description := inv.description,
            parameters := args, result := result, error := Option.none }
        let tail := runPlannedLoop oracle idGen rest (n + 1)
        (step :: tail.1,
          ProgressEvent.callEv toolCallId name args (some inv.description) ::
            ProgressEvent.resultEv toolCallId name args (some inv.description)
              (EvOutcome.okRes result) :: tail.2)
      | ToolOutcome.thrown t =>
        let message := thrownToMessage t
        let step : ExecutedStep :=
          { id := inv.id, tool := parsedToolName parsed, description := inv.description,
            parameters := args, result := StepResult.nullRes, error := some message }
        let tail := runPlannedLoop oracle idGen rest (n + 1)
        (step :: tail.1,
          ProgressEvent.callEv toolCallId name args (some inv.description) ::
            ProgressEvent.resultEv toolCallId name args (some inv.description)
              (EvOutcome.errRes message) :: tail.2)

def supportedToolNames : List ToolKind :=
  [ToolKind.search, ToolKind.retrieve, ToolKind.videoSearch]

/-- `executePlannedTools` (lines 1150-1274).  The internal
`toolInvocationSchemaInternal.safeParse` always succeeds on the typed
invocations (every field already has the schema's shape), so the parsed
list equals the filtered list and the
`invocations.length === 0 && filteredInvocations.length > 0` early
`return null` can never fire; the branch is kept for structural fidelity. -/
def executePlannedTools (plan : ToolPlan) (language : SupportedLanguage)
    (oracle : Nat → ToolOutcome) (idGen : Nat → String) :
    Option ToolExecutionResult × List ProgressEvent :=
  let localization := getLocalization language
  let filteredInvocations :=
    plan.toolInvocations.filter fun invocation => supportedToolNames.contains invocation.tool
  let invocations := filteredInvocations
  if invocations.length = 0 && filteredInvocations.length > 0 then (Option.none, [])
  else
    let run := runPlannedLoop oracle idGen invocations 0
    let executedSteps := run.1
    let summary := buildExecutionSummary executedSteps localization
    let finalInstruction := getPlanFinalInstruction plan localization
    let ann : DataAnn :=
      { toolCallId := "agent_pipeline", toolName := "agent", args := Option.none,
        payload := AnnPayload.planned plan.plan plan.toolInvocations finalInstruction
          executedSteps summary.sources }
    (some { toolCallDataAnn := some ann,
            toolCallMessages :=
              createToolResponderMessages plan executedSteps summary localization
                finalInstruction },
      run.2)

/-- What the orchestrator hands back to its caller: a returned value or a
propagated JS throw (a rejected promise). -/
inductive OrchestratorOutcome
  | returned (result : ToolExecutionResult)
  | threw (t : Thrown)
deriving DecidableEq, Repr

/-- `fallbackSearch` (lines 1684-1780).  `if (!query)` is JS truthiness on
the string.  Note the single `await search(query)` is *not* wrapped in a
try/catch, so a failing fallback search propagates out. -/
def fallbackSearch (coreMessages : List CoreMessage) (language : SupportedLanguage)
    (searchOutcome : ToolOutcome) (idGen : Nat → String) :
    List ProgressEvent × OrchestratorOutcome :=
  let query := getLastUserText coreMessages
  if query = "" then
    ([], OrchestratorOutcome.returned
      { toolCallDataAnn := Option.none, toolCallMessages := [] })
  else
    let localization := getLocalization language
    let toolCallId := "call_" ++ idGen 0
    let args := [("query", JVal.jstr query)]
    let callEv := ProgressEvent.callEv toolCallId "search" args Option.none
    match searchOutcome with
    | ToolOutcome.thrown t => ([callEv], OrchestratorOutcome.threw t)
    | ToolOutcome.ok result =>
      let executedSteps : List ExecutedStep :=
        [{ id := "fallback-search", tool := ToolName.search,
           description := localization.fallbackSearchDescription query,
           parameters := args, result := result, error := Option.none }]
      let summary := buildExecutionSummary executedSteps localization
      let toolCallMessages : List CoreMessage :=
        [ { role := Role.assistant,
            content := MessageContent.str (buildFallbackOverview executedSteps localization) },
          { role := Role.assistant, content := MessageContent.str summary.summary },
          { role := Role.user,
            content := MessageContent.str
              (buildFinalResponderInstruction localization.fallbackResponderInstruction
                summary.sources localization) } ]
      let ann : DataAnn :=
        { toolCallId := toolCallId, toolName := "search", args := some args,
          payload := AnnPayload.fallback result executedSteps
            localization.fallbackResponderInstruction summary.sources }
      ([callEv,
        ProgressEvent.resultEv toolCallId "search" args Option.none (EvOutcome.okRes result)],
        OrchestratorOutcome.returned
          { toolCallDataAnn := some ann, toolCallMessages := toolCallMessages })

/-- The outcome of the `buildToolPlan` model call (`generateObject` result
or its throw); on success `buildToolPlan` returns the *normalized* plan. -/
inductive PlannerOutcome
  | generated (plan : ToolPlan)
  | failed (t : Thrown)
deriving DecidableEq, Repr

/-- `executeToolCall` (lines 1066-1100).  The `model` string is only passed
through to the collaborators, which the oracles replace.  Only the
`buildToolPlan` call can throw inside the `try` (the loop catches each
tool error itself), so the catch-and-fall-back edge is the planner failure;
a `null` execution result also falls through to `fallbackSearch`. -/
def executeToolCall (coreMessages : List CoreMessage) (searchMode : Bool)
    (plannerOutcome : PlannerOutcome) (oracle : Nat → ToolOutcome)
    (fallbackOutcome : ToolOutcome) (idGen : Nat → String) :
    List ProgressEvent × OrchestratorOutcome :=
  if !searchMode then
    ([], OrchestratorOutcome.returned
      { toolCallDataAnn := Option.none, toolCallMessages := [] })
  else
    let lastUserText := getLastUserText coreMessages
    let language := detectLanguageFromText lastUserText
    match plannerOutcome with
    | PlannerOutcome.failed _ => fallbackSearch coreMessages language fallbackOutcome idGen
    | PlannerOutcome.generated rawPlan =>
      let toolPlan := normalizeToolPlan rawPlan
      let execution := executePlannedTools toolPlan language oracle idGen
      match execution.1 with
      | some result => (execution.2, OrchestratorOutcome.returned result)
      | Option.none =>
        let fb := fallbackSearch coreMessages language fallbackOutcome idGen
        (execution.2 ++ fb.1, fb.2)

/-! ## Derived definitions used by the verification below -/

/-- The digit list of `natRepr`. -/
def natDigits (n : Nat) : List Char := natReprCore (n + 1) n []

/-- The base id computed by `normalizeInvocationId` before collision
disambiguation (trim, whitespace→`-`, positional fallback). -/
def invocationBaseId (inv : ToolInvocation) (index : Nat) : String :=
  let trimmed := jsTrim inv.id
  if trimmed.length > 0 then jsReplaceWsDash trimmed else "step-" ++ natRepr index

/-- The base ids of an invocation list, with 1-based positions starting at
`index`. -/
def baseIdsFrom : List ToolInvocation → Nat → List String
  | [], _ => []
  | inv :: rest, index => invocationBaseId inv index :: baseIdsFrom rest (index + 1)

/-- The ids produced from a list of base ids against a history of already
seen base ids: a first occurrence keeps its base id, the (c+1)-st
occurrence is suffixed `-<c+1>`. -/
def idsSpec : List String → List String → List String
  | _, [] => []
  | hist, b :: bs =>
    let c := hist.count b
    (if c = 0 then b else b ++ "-" ++ natRepr (c + 1)) :: idsSpec (hist ++ [b]) bs

/-- The invocations that survive parameter validation, each with its parse
result, in plan order. -/
def validatedInvocations (invs : List ToolInvocation) :
    List (ToolInvocation × ParsedToolParameters) :=
  invs.filterMap fun inv => (parseInvocationParameters inv).map fun p => (inv, p)

/-- A plan whose third invocation id coincides with the suffixed id that
collision disambiguation generates for the second one. -/
def collisionPlan : ToolPlan :=
  { plan := [], finalResponseInstruction := "x",
    toolInvocations :=
      [ { id := "a", tool := ToolKind.search, description := "d", parameters := [] },
        { id := "a", tool := ToolKind.search, description := "d", parameters := [] },
        { id := "a-2", tool := ToolKind.search, description := "d", parameters := [] } ] }

/-- A conversation whose last user message is plain non-empty English
text. -/
def helloMsgs : List CoreMessage :=
  [ { role := Role.user, content := MessageContent.str "What is the weather in Paris?" } ]

/-- A conversation whose last user message is whitespace-only. -/
def wsOnlyMsgs : List CoreMessage :=
  [ { role := Role.user, content := MessageContent.str "   " } ]

/-- The empty plan (planner decided no tools are needed). -/
def emptyToolPlan : ToolPlan :=
  { plan := [], toolInvocations := [], finalResponseInstruction := "" }

/-- A one-item search result. -/
def oneSearchResult : StepResult :=
  StepResult.searchLike [ { title := "T", url := "http://u", content := "c" } ]

/-- An executed step carrying an *empty* error string together with a
one-item search result. -/
def emptyErrorStep : ExecutedStep :=
  { id := "s1", tool := ToolName.search, description := "d", parameters := [],
    result := oneSearchResult, error := some "" }

/-- 159 `a`s followed by two spaces: 161 characters, whose
whitespace-collapsed form has exactly 160 characters. -/
def paddedContent : String := ⟨List.replicate 159 'a' ++ [' ', ' ']⟩

/-- A successful search step whose single result carries `paddedContent`. -/
def paddedStep : ExecutedStep :=
  { id := "s1", tool := ToolName.search, description := "d", parameters := [],
    result := StepResult.searchLike [ { title := "T", url := "http://u", content := paddedContent } ],
    error := Option.none }

/-! ## Helper lemmas: trimming, whitespace collapse, numerals -/

theorem dropWhile_idem (p : Char → Bool) (l : List Char) :
    (l.dropWhile p).dropWhile p = l.dropWhile p := by
  induction l with
  | nil => simp
  | cons c l ih =>
    by_cases h : p c
    · simpa [List.dropWhile_cons, h] using ih
    · simp [List.dropWhile_cons, h]

theorem dropWhile_self_of_append (p : Char → Bool) (l r : List Char)
    (h : (l ++ r).dropWhile p = l ++ r) : l.dropWhile p = l := by
  cases l with
  | nil => simp
  | cons c l =>
    by_cases hc : p c
    · exfalso
      rw [List.cons_append, List.dropWhile_cons, if_pos hc] at h
      have hle := (List.dropWhile_sublist (l := l ++ r) (p := p)).length_le
      have hlen := congrArg List.length h
      simp [List.length_append] at hlen hle
      omega
    · simp [List.dropWhile_cons, hc]

theorem trimChars_idem (l : List Char) : trimChars (trimChars l) = trimChars l := by
  have hd_idem : (l.dropWhile isJsWs).dropWhile isJsWs = l.dropWhile isJsWs :=
    dropWhile_idem _ _
  have hsplit :=
    List.takeWhile_append_dropWhile (p := isJsWs) (l := (l.dropWhile isJsWs).reverse)
  have hdecomp : l.dropWhile isJsWs =
      ((l.dropWhile isJsWs).reverse.dropWhile isJsWs).reverse ++
        ((l.dropWhile isJsWs).reverse.takeWhile isJsWs).reverse := by
    have h2 := congrArg List.reverse hsplit
    rw [List.reverse_append, List.reverse_reverse] at h2
    exact h2.symm
  have hr_front : (trimChars l).dropWhile isJsWs = trimChars l := by
    unfold trimChars
    apply dropWhile_self_of_append isJsWs _
      (((l.dropWhile isJsWs).reverse.takeWhile isJsWs).reverse)
    rw [← hdecomp]
    exact hd_idem
  have hr_back : (trimChars l).reverse.dropWhile isJsWs = (trimChars l).reverse := by
    unfold trimChars
    rw [List.reverse_reverse]
    exact dropWhile_idem _ _
  rw [show trimChars (trimChars l) =
      (((trimChars l).dropWhile isJsWs).reverse.dropWhile isJsWs).reverse from rfl]
  rw [hr_front, hr_back, List.reverse_reverse]

theorem jsTrim_idem (s : String) : jsTrim (jsTrim s) = jsTrim s := by
  apply String.ext
  exact trimChars_idem s.data

theorem dropWhile_of_all_false (p : Char → Bool) (l : List Char)
    (h : ∀ c ∈ l, p c = false) : l.dropWhile p = l := by
  cases l with
  | nil => simp
  | cons c l => simp [List.dropWhile_cons, h c (by simp)]

theorem trimChars_of_wsFree (l : List Char) (h : ∀ c ∈ l, isJsWs c = false) :
    trimChars l = l := by
  unfold trimChars
  rw [dropWhile_of_all_false _ _ h, dropWhile_of_all_false, List.reverse_reverse]
  intro c hc
  exact h c (by simpa using hc)

theorem jsTrim_of_wsFree (s : String) (h : ∀ c ∈ s.data, isJsWs c = false) :
    jsTrim s = s := by
  apply String.ext
  exact trimChars_of_wsFree s.data h

theorem mem_replaceWsRunsAux (r : Char) (b : Bool) (l : List Char) (c : Char)
    (h : c ∈ replaceWsRunsAux r b l) : c = r ∨ (c ∈ l ∧ isJsWs c = false) := by
  induction l generalizing b with
  | nil => simp [replaceWsRunsAux] at h
  | cons x l ih =>
    by_cases hx : isJsWs x
    · cases b with
      | true =>
        simp only [replaceWsRunsAux, hx, if_pos, if_true] at h
        rcases ih _ h with h' | ⟨h1, h2⟩
        · exact Or.inl h'
        · exact Or.inr ⟨by simp [h1], h2⟩
      | false =>
        simp only [replaceWsRunsAux, hx, if_true] at h
        rcases List.mem_cons.mp h with h' | h'
        · exact Or.inl h'
        · rcases ih _ h' with h'' | ⟨h1, h2⟩
          · exact Or.inl h''
          · exact Or.inr ⟨by simp [h1], h2⟩
    · simp only [replaceWsRunsAux, hx, if_false, Bool.false_eq_true] at h
      rcases List.mem_cons.mp h with h' | h'
      · subst h'
        exact Or.inr ⟨by simp, by simpa using hx⟩
      · rcases ih _ h' with h'' | ⟨h1, h2⟩
        · exact Or.inl h''
        · exact Or.inr ⟨by simp [h1], h2⟩

theorem replaceWsRunsAux_of_wsFree (r : Char) (b : Bool) (l : List Char)
    (h : ∀ c ∈ l, isJsWs c = false) : replaceWsRunsAux r b l = l := by
  induction l generalizing b with
  | nil => rfl
  | cons x l ih =>
    have hx := h x (by simp)
    simp only [replaceWsRunsAux, hx, Bool.false_eq_true, if_false]
    rw [ih false fun c hc => h c (by simp [hc])]

theorem replaceWsRunsAux_ne_nil (r : Char) (l : List Char) (h : l ≠ []) :
    replaceWsRunsAux r false l ≠ [] := by
  cases l with
  | nil => exact absurd rfl h
  | cons x l =>
    by_cases hx : isJsWs x <;> simp [replaceWsRunsAux, hx]

theorem length_replaceWsRunsAux_le (r : Char) (b : Bool) (l : List Char) :
    (replaceWsRunsAux r b l).length ≤ l.length := by
  induction l generalizing b with
  | nil => simp [replaceWsRunsAux]
  | cons x l ih =>
    by_cases hx : isJsWs x
    · cases b with
      | true =>
        simp only [replaceWsRunsAux, hx, if_true]
        exact Nat.le_succ_of_le (ih _)
      | false =>
        simp only [replaceWsRunsAux, hx, if_true, List.length_cons]
        exact Nat.succ_le_succ (ih _)
    · simp only [replaceWsRunsAux, hx, Bool.false_eq_true, if_false, List.length_cons]
      exact Nat.succ_le_succ (ih _)

theorem jsCollapseWs_length_le (s : String) : (jsCollapseWs s).length ≤ s.length := by
  exact length_replaceWsRunsAux_le ' ' false s.data

theorem jsReplaceWsDash_wsFree (s : String) :
    ∀ c ∈ (jsReplaceWsDash s).data, isJsWs c = false := by
  intro c hc
  rcases mem_replaceWsRunsAux '-' false s.data c hc with h | ⟨_, h⟩
  · subst h; decide
  · exact h

theorem data_ne_nil_of_ne_empty (s : String) (h : s ≠ "") : s.data ≠ [] := by
  intro hdata
  exact h (String.ext hdata)

theorem ne_empty_of_data_ne_nil (s : String) (h : s.data ≠ []) : s ≠ "" := by
  intro he
  subst he
  exact h rfl

theorem jsReplaceWsDash_ne_empty (s : String) (h : s ≠ "") : jsReplaceWsDash s ≠ "" := by
  apply ne_empty_of_data_ne_nil
  exact replaceWsRunsAux_ne_nil '-' s.data (data_ne_nil_of_ne_empty s h)

theorem isJsWs_digitChar (d : Nat) : isJsWs (digitChar d) = false := by
  unfold digitChar
  split <;> decide

theorem digitChar_ne_dash (d : Nat) : digitChar d ≠ '-' := by
  unfold digitChar
  split <;> decide

theorem digitChar_inj (d e : Nat) (hd : d < 10) (he : e < 10)
    (h : digitChar d = digitChar e) : d = e := by
  interval_cases d <;> interval_cases e <;> first | rfl | exact absurd h (by decide)

theorem natReprCore_eq (n : Nat) : ∀ fuel acc, n < fuel →
    natReprCore fuel n acc = natDigits n ++ acc := by
  induction n using Nat.strong_induction_on with
  | _ n ih =>
    intro fuel acc hfuel
    match fuel with
    | 0 => omega
    | f + 1 =>
      by_cases h10 : n < 10
      · simp [natReprCore, natDigits, h10]
      · have hdiv : n / 10 < n := Nat.div_lt_self (by omega) (by omega)
        have hrec1 : natReprCore f (n / 10) (digitChar (n % 10) :: acc) =
            natDigits (n / 10) ++ digitChar (n % 10) :: acc :=
          ih (n / 10) hdiv f _ (by omega)
        have hrec2 : natReprCore n (n / 10) [digitChar (n % 10)] =
            natDigits (n / 10) ++ [digitChar (n % 10)] :=
          ih (n / 10) hdiv n _ (by omega)
        simp only [natReprCore, h10, if_false, Bool.false_eq_true]
        rw [hrec1]
        have hnd : natDigits n = natDigits (n / 10) ++ [digitChar (n % 10)] := by
          unfold natDigits
          rw [show natReprCore (n + 1) n [] =
              natReprCore n (n / 10) [digitChar (n % 10)] by
            simp [natReprCore, h10]]
          exact hrec2
        rw [hnd, List.append_assoc]
        rfl

theorem natDigits_lt_ten (n : Nat) (h : n < 10) : natDigits n = [digitChar n] := by
  simp [natDigits, natReprCore, h]

theorem natDigits_ge_ten (n : Nat) (h : ¬ n < 10) :
    natDigits n = natDigits (n / 10) ++ [digitChar (n % 10)] := by
  unfold natDigits
  rw [show natReprCore (n + 1) n [] = natReprCore n (n / 10) [digitChar (n % 10)] by
    simp [natReprCore, h]]
  exact natReprCore_eq (n / 10) n [digitChar (n % 10)]
    (lt_of_lt_of_le (Nat.div_lt_self (by omega) (by omega)) (le_refl n))

theorem natDigits_ne_nil (n : Nat) : natDigits n ≠ [] := by
  by_cases h : n < 10
  · rw [natDigits_lt_ten n h]; simp
  · rw [natDigits_ge_ten n h]; simp

theorem mem_natDigits (n : Nat) (c : Char) (h : c ∈ natDigits n) :
    ∃ d, d < 10 ∧ c = digitChar d := by
  induction n using Nat.strong_induction_on with
  | _ n ih =>
    by_cases h10 : n < 10
    · rw [natDigits_lt_ten n h10] at h
      simp at h
      exact ⟨n, h10, h⟩
    · rw [natDigits_ge_ten n h10] at h
      rcases List.mem_append.mp h with h' | h'
      · exact ih (n / 10) (Nat.div_lt_self (by omega) (by omega)) h'
      · simp at h'
        exact ⟨n % 10, Nat.mod_lt n (by omega), h'⟩

theorem natDigits_wsFree (n : Nat) (c : Char) (h : c ∈ natDigits n) :
    isJsWs c = false := by
  rcases mem_natDigits n c h with ⟨d, _, rfl⟩
  exact isJsWs_digitChar d

theorem natDigits_no_dash (n : Nat) (c : Char) (h : c ∈ natDigits n) : c ≠ '-' := by
  rcases mem_natDigits n c h with ⟨d, _, rfl⟩
  exact digitChar_ne_dash d

theorem concat_inj_of_eq (xs ys : List Char) (a b : Char)
    (h : xs ++ [a] = ys ++ [b]) : xs = ys ∧ a = b := by
  have h2 := congrArg List.reverse h
  rw [List.reverse_append, List.reverse_append] at h2
  simp at h2
  obtain ⟨hab, hxy⟩ := h2
  exact ⟨by simpa using congrArg List.reverse hxy, hab⟩

theorem natDigits_inj (m : Nat) : ∀ n, natDigits m = natDigits n → m = n := by
  induction m using Nat.strong_induction_on with
  | _ m ih =>
    intro n h
    by_cases hm : m < 10 <;> by_cases hn : n < 10
    · rw [natDigits_lt_ten m hm, natDigits_lt_ten n hn] at h
      simp at h
      exact digitChar_inj m n hm hn h
    · exfalso
      rw [natDigits_lt_ten m hm, natDigits_ge_ten n hn] at h
      have hlen := congrArg List.length h
      simp [List.length_append] at hlen
      exact natDigits_ne_nil (n / 10) (by simp_all)
    · exfalso
      rw [natDigits_ge_ten m hm, natDigits_lt_ten n hn] at h
      have hlen := congrArg List.length h
      simp [List.length_append] at hlen
      exact natDigits_ne_nil (m / 10) (by simp_all)
    · rw [natDigits_ge_ten m hm, natDigits_ge_ten n hn] at h
      obtain ⟨hdiv, hmod⟩ := concat_inj_of_eq _ _ _ _ h
      have h1 : m / 10 = n / 10 :=
        ih (m / 10) (Nat.div_lt_self (by omega) (by omega)) (n / 10) hdiv
      have h2 : m % 10 = n % 10 :=
        digitChar_inj _ _ (Nat.mod_lt m (by omega)) (Nat.mod_lt n (by omega)) hmod
      omega

theorem natRepr_data (n : Nat) : (natRepr n).data = natDigits n := rfl

theorem natRepr_inj (m n : Nat) (h : natRepr m = natRepr n) : m = n := by
  apply natDigits_inj
  exact congrArg String.data h

/-! ## Marker allocation lemmas (claim C2) -/

theorem enum_map_fst_comp {α β : Type} (l : List α) (g : Nat → β) :
    l.enum.map (fun p => g p.1) = (List.range l.length).map g := by
  rw [show (fun p : Nat × α => g p.1) = g ∘ Prod.fst from rfl]
  rw [← List.map_map, List.enum_map_fst]

theorem map_marker_enum {α : Type} (l : List α) (idx : Nat) (f : Nat × α → SourceReference)
    (hf : ∀ p, (f p).marker = createMarker (idx + p.1)) :
    (l.enum.map f).map (fun s => s.marker) =
      (List.range l.length).map (fun j => createMarker (idx + j)) := by
  rw [List.map_map]
  rw [show (fun s : SourceReference => s.marker) ∘ f = fun p => createMarker (idx + p.1) from
    funext hf]
  exact enum_map_fst_comp l (fun j => createMarker (idx + j))

theorem formatSearchSummary_spec (step : ExecutedStep) (idx : Nat) (loc : LocalizationBundle) :
    (formatSearchSummary step idx loc).nextIndex =
        idx + (formatSearchSummary step idx loc).added.length ∧
    (formatSearchSummary step idx loc).added.map (fun s => s.marker) =
      (List.range (formatSearchSummary step idx loc).added.length).map
        (fun j => createMarker (idx + j)) := by
  cases hres : step.result with
  | nullRes => simp [formatSearchSummary, hres]
  | videoLike vs => simp [formatSearchSummary, hres]
  | searchLike results =>
    by_cases hlen : results.length = 0
    · simp [formatSearchSummary, hlen, hres]
    · have hadded : (formatSearchSummary step idx loc).added =
          (results.take 3).enum.map (fun p =>
            { marker := createMarker (idx + p.1), url := p.2.url,
              title := some p.2.title, stepId := step.id }) := by
        simp [formatSearchSummary, hres, hlen]
      have hnext : (formatSearchSummary step idx loc).nextIndex =
          idx + (results.take 3).length := by
        simp [formatSearchSummary, hres, hlen]
      constructor
      · rw [hadded, hnext]
        simp [List.enum_length]
      · rw [hadded, map_marker_enum (results.take 3) idx _ (fun p => rfl)]
        congr 1
        simp [List.enum_length]

theorem formatRetrieveSummary_spec (step : ExecutedStep) (idx : Nat) (loc : LocalizationBundle) :
    (formatRetrieveSummary step idx loc).nextIndex =
        idx + (formatRetrieveSummary step idx loc).added.length ∧
    (formatRetrieveSummary step idx loc).added.map (fun s => s.marker) =
      (List.range (formatRetrieveSummary step idx loc).added.length).map
        (fun j => createMarker (idx + j)) := by
  cases hres : step.result with
  | nullRes => simp [formatRetrieveSummary, hres]
  | videoLike vs => simp [formatRetrieveSummary, hres]
  | searchLike results =>
    cases results with
    | nil => simp [formatRetrieveSummary, hres]
    | cons item rest => simp [formatRetrieveSummary, hres, List.range_succ]

theorem formatVideoSummary_spec (step : ExecutedStep) (idx : Nat) (loc : LocalizationBundle) :
    (formatVideoSummary step idx loc).nextIndex =
        idx + (formatVideoSummary step idx loc).added.length ∧
    (formatVideoSummary step idx loc).added.map (fun s => s.marker) =
      (List.range (formatVideoSummary step idx loc).added.length).map
        (fun j => createMarker (idx + j)) := by
  cases hres : step.result with
  | nullRes => simp [formatVideoSummary, hres]
  | searchLike rs => simp [formatVideoSummary, hres]
  | videoLike videos =>
    by_cases hlen : videos.length = 0
    · simp [formatVideoSummary, hlen, hres]
    · have hadded : (formatVideoSummary step idx loc).added =
          (videos.take 3).enum.map (fun p =>
            { marker := createMarker (idx + p.1), url := p.2.link,
              title := some p.2.title, stepId := step.id }) := by
        simp [formatVideoSummary, hres, hlen]
      have hnext : (formatVideoSummary step idx loc).nextIndex =
          idx + (videos.take 3).length := by
        simp [formatVideoSummary, hres, hlen]
      constructor
      · rw [hadded, hnext]
        simp [List.enum_length]
      · rw [hadded, map_marker_enum (videos.take 3) idx _ (fun p => rfl)]
        congr 1
        simp [List.enum_length]

theorem formatStep_spec (loc : LocalizationBundle) (step : ExecutedStep) (idx : Nat) :
    (formatStep loc step idx).nextIndex = idx + (formatStep loc step idx).added.length ∧
    (formatStep loc step idx).added.map (fun s => s.marker) =
      (List.range (formatStep loc step idx).added.length).map
        (fun j => createMarker (idx + j)) := by
  have hdispatch : (formatStepDispatch loc step idx).nextIndex =
        idx + (formatStepDispatch loc step idx).added.length ∧
      (formatStepDispatch loc step idx).added.map (fun s => s.marker) =
        (List.range (formatStepDispatch loc step idx).added.length).map
          (fun j => createMarker (idx + j)) := by
    cases htool : step.tool with
    | search =>
      have := formatSearchSummary_spec step idx loc
      simpa [formatStepDispatch, htool] using this
    | retrieve =>
      have := formatRetrieveSummary_spec step idx loc
      simpa [formatStepDispatch, htool] using this
    | videoSearch =>
      have := formatVideoSummary_spec step idx loc
      simpa [formatStepDispatch, htool] using this
  cases herr : step.error with
  | none => simpa [formatStep, herr] using hdispatch
  | some msg =>
    by_cases hmsg : msg = ""
    · simpa [formatStep, herr, hmsg] using hdispatch
    · simp [formatStep, herr, hmsg]

theorem summarizePass_markers (loc : LocalizationBundle) (steps : List ExecutedStep)
    (idx : Nat) :
    ((summarizePass loc steps idx).2).map (fun s => s.marker) =
      (List.range (summarizePass loc steps idx).2.length).map
        (fun j => createMarker (idx + j)) := by
  induction steps generalizing idx with
  | nil => simp [summarizePass]
  | cons step rest ih =>
    obtain ⟨hnext, hmark⟩ := formatStep_spec loc step idx
    simp only [summarizePass]
    rw [List.map_append, hmark, ih ((formatStep loc step idx).nextIndex), hnext]
    rw [List.length_append, List.range_add, List.map_append, List.map_map]
    congr 1
    apply List.map_congr_left
    intro j hj
    simp [Function.comp, Nat.add_assoc]

/-- C2: for every executed-step list and localization bundle, the sources of
`buildExecutionSummary` carry the markers `[1], [2], …, [k]` in order — the
j-th source (0-based) has marker `createMarker (j+1)` — so the numbering is
global across the step sequence, gap-free, repetition-free, and increases by
exactly one per emitted source in step order and in-step result order. -/
theorem buildExecutionSummary_marker_monotonicity
    (steps : List ExecutedStep) (localization : LocalizationBundle) :
    ((buildExecutionSummary steps localization).sources).map (fun s => s.marker) =
      (List.range (buildExecutionSummary steps localization).sources.length).map
        (fun j => createMarker (j + 1)) := by
  have h := summarizePass_markers localization steps 1
  have hsrc : (buildExecutionSummary steps localization).sources =
      (summarizePass localization steps 1).2 := rfl
  rw [hsrc, h]
  apply List.map_congr_left
  intro j hj
  rw [Nat.add_comm]

/-! ## Error steps and source contribution (claim C6) -/

theorem formatStep_error_eq (loc : LocalizationBundle) (step : ExecutedStep) (idx : Nat)
    (m : String) (herr : step.error = some m) (hm : m ≠ "") :
    formatStep loc step idx =
      ⟨"• " ++ step.description ++ "\n  ⚠️ " ++ loc.failedWithError m, [], idx⟩ := by
  simp [formatStep, herr, hm]

theorem summarizePass_sources_filter_errors (loc : LocalizationBundle)
    (steps : List ExecutedStep) (idx : Nat)
    (h : ∀ s ∈ steps, ∀ m, s.error = some m → m ≠ "") :
    (summarizePass loc (steps.filter fun s => s.error.isNone) idx).2 =
      (summarizePass loc steps idx).2 := by
  induction steps generalizing idx with
  | nil => simp
  | cons step rest ih =>
    have hrest : ∀ s ∈ rest, ∀ m, s.error = some m → m ≠ "" :=
      fun s hs m hm => h s (List.mem_cons_of_mem _ hs) m hm
    cases herr : step.error with
    | none =>
      rw [List.filter_cons, if_pos (by simp [herr])]
      simp only [summarizePass]
      rw [ih _ hrest]
    | some m =>
      have hm : m ≠ "" := h step (List.mem_cons_self _ _) m herr
      rw [List.filter_cons, if_neg (by simp [herr])]
      conv_rhs => rw [show summarizePass loc (step :: rest) idx =
        (let out := formatStep loc step idx
         let tail := summarizePass loc rest out.nextIndex
         (out.text :: tail.1, out.added ++ tail.2)) from rfl]
      rw [formatStep_error_eq loc step idx m herr hm]
      simp only []
      rw [ih _ hrest]
      simp

/-- C6 (amended): a step whose error is a *non-empty* string contributes no
entries to `ExecutionSummary.sources` and does not advance marker
allocation — removing all such steps leaves the sources unchanged — and its
only rendering is the bullet line with the localized failure phrase.  (A
step whose error is the *empty* string is also "set" but falls through the
JS-truthiness test `if (step.error)` to the ordinary tool dispatch, see the
counterexample.) -/
theorem errorStep_contributes_no_sources
    (steps : List ExecutedStep) (localization : LocalizationBundle)
    (h : ∀ s ∈ steps, ∀ m, s.error = some m → m ≠ "") :
    (buildExecutionSummary (steps.filter fun s => s.error.isNone) localization).sources =
      (buildExecutionSummary steps localization).sources ∧
    ∀ s ∈ steps, ∀ m, s.error = some m → ∀ idx,
      formatStep localization s idx =
        ⟨"• " ++ s.description ++ "\n  ⚠️ " ++ localization.failedWithError m, [], idx⟩ := by
  constructor
  · exact summarizePass_sources_filter_errors localization steps 1 h
  · intro s hs m hm idx
    exact formatStep_error_eq localization s idx m hm (h s hs m hm)

/-- C6 counterexample: a step whose `error` field is set — to the empty
string, which is still a set, non-null error — both contributes a source
reference to `buildExecutionSummary` and is rendered as an ordinary search
block rather than the failure bullet, because `if (step.error)` is a JS
truthiness test. -/
theorem errorStep_contributes_no_sources_counterexample :
    emptyErrorStep.error ≠ Option.none ∧
    (buildExecutionSummary [emptyErrorStep] enLocalization).sources =
      [{ marker := "[1]", url := "http://u", title := some "T", stepId := "s1" }] ∧
    (formatStep enLocalization emptyErrorStep 1).added ≠ [] := by
  refine ⟨by decide, by decide, by decide⟩

/-- Witness for `errorStep_contributes_no_sources` at a concrete two-step
list with one failing and one succeeding step. -/
theorem errorStep_contributes_no_sources_witness :
    (∀ s ∈ ([{ id := "e1", tool := ToolName.search, description := "d1", parameters := [],
               result := StepResult.nullRes, error := some "boom" },
             { id := "s1", tool := ToolName.search, description := "d2", parameters := [],
               result := oneSearchResult, error := Option.none }] : List ExecutedStep),
        ∀ m, s.error = some m → m ≠ "") ∧
    ((buildExecutionSummary
        (([{ id := "e1", tool := ToolName.search, description := "d1", parameters := [],
             result := StepResult.nullRes, error := some "boom" },
           { id := "s1", tool := ToolName.search, description := "d2", parameters := [],
             result := oneSearchResult, error := Option.none }] : List ExecutedStep).filter
          fun s => s.error.isNone) enLocalization).sources =
      (buildExecutionSummary
        ([{ id := "e1", tool := ToolName.search, description := "d1", parameters := [],
            result := StepResult.nullRes, error := some "boom" },
          { id := "s1", tool := ToolName.search, description := "d2", parameters := [],
            result := oneSearchResult, error := Option.none }] : List ExecutedStep)
        enLocalization).sources ∧
    ∀ s ∈ ([{ id := "e1", tool := ToolName.search, description := "d1", parameters := [],
              result := StepResult.nullRes, error := some "boom" },
            { id := "s1", tool := ToolName.search, description := "d2", parameters := [],
              result := oneSearchResult, error := Option.none }] : List ExecutedStep),
      ∀ m, s.error = some m → ∀ idx,
        formatStep enLocalization s idx =
          ⟨"• " ++ s.description ++ "\n  ⚠️ " ++ enLocalization.failedWithError m, [], idx⟩) := by
  have hhyp : ∀ s ∈ ([{ id := "e1", tool := ToolName.search, description := "d1",
                         parameters := [], result := StepResult.nullRes, error := some "boom" },
                       { id := "s1", tool := ToolName.search, description := "d2",
                         parameters := [], result := oneSearchResult,
                         error := Option.none }] : List ExecutedStep),
      ∀ m, s.error = some m → m ≠ "" := by
    intro s hs m hm
    simp only [List.mem_cons, List.mem_singleton] at hs
    rcases hs with rfl | rfl | hs
    · simp only [] at hm
      cases hm
      decide
    · simp at hm
    · simp at hs
  exact ⟨hhyp, errorStep_contributes_no_sources _ enLocalization hhyp⟩

/-! ## The search formatter (claim C7) -/

theorem jsSlice_length_le (s : String) (n : Nat) : (jsSlice s n).length ≤ n := by
  show (s.data.take n).length ≤ n
  simp [List.length_take]

/-- C7 (amended): on a successful search step, `formatSearchSummary` takes
at most the first 3 result items and registers one
`SourceReference{marker, url, title, stepId}` per taken item; each rendered
line carries the title, the url and the whitespace-collapsed snippet cut to
160 characters; the ellipsis is appended if and only if the *raw* content
exceeds 160 characters — in particular it is appended whenever the snippet
was actually truncated, but may also appear when whitespace collapsing
brought the content down to 160 characters or fewer (see the
counterexample); a step with zero result items renders the localized
no-results line and allocates no markers. -/
theorem formatSearchSummary_spec_full (step : ExecutedStep) (idx : Nat)
    (loc : LocalizationBundle) (results : List SearchResultItem)
    (hres : step.result = StepResult.searchLike results) :
    (results = [] →
      formatSearchSummary step idx loc =
        ⟨"• " ++ step.description ++ "\n  – " ++ loc.noResultsFound, [], idx⟩) ∧
    (results ≠ [] →
      (formatSearchSummary step idx loc).added =
        (results.take 3).enum.map (fun p =>
          { marker := createMarker (idx + p.1), url := p.2.url,
            title := some p.2.title, stepId := step.id }) ∧
      (formatSearchSummary step idx loc).added.length = min 3 results.length ∧
      (formatSearchSummary step idx loc).text =
        "• " ++ step.description ++ "\n" ++
          String.intercalate "\n" ((results.take 3).enum.map fun p =>
            "  " ++ createMarker (idx + p.1) ++ " " ++ p.2.title ++ " – " ++ p.2.url ++
              "\n    " ++ jsSlice (jsCollapseWs p.2.content) 160 ++
              (if p.2.content.length > 160 then "…" else "")) ∧
      ∀ item ∈ results.take 3,
        (jsSlice (jsCollapseWs item.content) 160).length ≤ 160 ∧
        ((jsCollapseWs item.content).length > 160 → item.content.length > 160)) := by
  constructor
  · intro hnil
    subst hnil
    simp [formatSearchSummary, hres]
  · intro hne
    have hlen : ¬ results.length = 0 := by
      simpa [List.length_eq_zero] using hne
    refine ⟨?_, ?_, ?_, ?_⟩
    · simp [formatSearchSummary, hres, hlen]
    · simp [formatSearchSummary, hres, hlen, List.enum_length, List.length_take,
        Nat.min_comm]
    · simp [formatSearchSummary, hres, hlen]
    · intro item _
      refine ⟨jsSlice_length_le _ _, fun hgt => ?_⟩
      have hle := jsCollapseWs_length_le item.content
      omega

/-- C7 counterexample: `paddedContent` is 161 characters whose
whitespace-collapsed form is exactly 160 characters, so the snippet
`slice(0, 160)` is NOT truncated (it returns the whole collapsed string),
yet `formatSearchSummary` appends the ellipsis, because the condition
tests `item.content.length > 160` on the raw content — refuting "ellipsis
if and only if the snippet was truncated". -/
theorem formatSearchSummary_ellipsis_counterexample :
    (jsCollapseWs paddedContent).length = 160 ∧
    jsSlice (jsCollapseWs paddedContent) 160 = jsCollapseWs paddedContent ∧
    (formatSearchSummary paddedStep 1 enLocalization).text =
      "• d\n  [1] T – http://u\n    " ++ jsCollapseWs paddedContent ++ "…" := by
  refine ⟨by decide, by decide, by decide⟩

/-- Witness for `formatSearchSummary_spec_full` at `paddedStep`. -/
theorem formatSearchSummary_spec_full_witness :
    (paddedStep.result = StepResult.searchLike
      [{ title := "T", url := "http://u", content := paddedContent }]) ∧
    (([{ title := "T", url := "http://u", content := paddedContent }] :
        List SearchResultItem) = [] →
      formatSearchSummary paddedStep 1 enLocalization =
        ⟨"• " ++ paddedStep.description ++ "\n  – " ++ enLocalization.noResultsFound,
          [], 1⟩) ∧
    (([{ title := "T", url := "http://u", content := paddedContent }] :
        List SearchResultItem) ≠ [] →
      (formatSearchSummary paddedStep 1 enLocalization).added =
        (([{ title := "T", url := "http://u", content := paddedContent }] :
          List SearchResultItem).take 3).enum.map (fun p =>
          { marker := createMarker (1 + p.1), url := p.2.url,
            title := some p.2.title, stepId := paddedStep.id }) ∧
      (formatSearchSummary paddedStep 1 enLocalization).added.length =
        min 3 ([{ title := "T", url := "http://u", content := paddedContent }] :
          List SearchResultItem).length ∧
      (formatSearchSummary paddedStep 1 enLocalization).text =
        "• " ++ paddedStep.description ++ "\n" ++
          String.intercalate "\n"
            ((([{ title := "T", url := "http://u", content := paddedContent }] :
              List SearchResultItem).take 3).enum.map fun p =>
            "  " ++ createMarker (1 + p.1) ++ " " ++ p.2.title ++ " – " ++ p.2.url ++
              "\n    " ++ jsSlice (jsCollapseWs p.2.content) 160 ++
              (if p.2.content.length > 160 then "…" else "")) ∧
      ∀ item ∈ ([{ title := "T", url := "http://u", content := paddedContent }] :
          List SearchResultItem).take 3,
        (jsSlice (jsCollapseWs item.content) 160).length ≤ 160 ∧
        ((jsCollapseWs item.content).length > 160 → item.content.length > 160)) := by
  have h := formatSearchSummary_spec_full paddedStep 1 enLocalization
    [{ title := "T", url := "http://u", content := paddedContent }] rfl
  exact ⟨rfl, h.1, h.2⟩

/-! ## Language detection (claim C8) -/

/-- C8: `detectLanguageFromText` is a pure, deterministic function of the
text (equal inputs give equal outputs); the Russian sample maps to `ru`,
the Spanish sample to `es`, the empty string to `en`; and the script-range
signal has absolute priority — any text containing a Cyrillic character is
classified `ru` no matter what word heuristics would say. -/
theorem detectLanguage_deterministic_and_values :
    (∀ s t : String, s = t → detectLanguageFromText s = detectLanguageFromText t) ∧
    detectLanguageFromText "Я ищу информацию" = SupportedLanguage.ru ∧
    detectLanguageFromText "Quiero buscar información sobre el clima" =
      SupportedLanguage.es ∧
    detectLanguageFromText "" = SupportedLanguage.en ∧
    (∀ t : String, textHasRange 0x400 0x4FF t = true →
      detectLanguageFromText t = SupportedLanguage.ru) := by
  refine ⟨fun s t h => h ▸ rfl, by decide, by decide, by decide, ?_⟩
  intro t ht
  have hne : ¬ t = "" := by
    intro he
    subst he
    simp [textHasRange] at ht
  unfold detectLanguageFromText
  rw [if_neg hne, if_pos ht]

/-- Witness for `detectLanguage_deterministic_and_values`: determinism and
the Cyrillic priority discharged at the Russian sample. -/
theorem detectLanguage_witness :
    detectLanguageFromText "Я ищу информацию" =
      detectLanguageFromText "Я ищу информацию" ∧
    textHasRange 0x400 0x4FF "Я ищу информацию" = true ∧
    detectLanguageFromText "Я ищу информацию" = SupportedLanguage.ru := by
  exact ⟨detectLanguage_deterministic_and_values.1 _ _ rfl, by decide,
    detectLanguage_deterministic_and_values.2.2.2.2 _ (by decide)⟩

/-! ## Progress-event pairing and error recording (claims C9, C10) -/

/-- C9: the events emitted by the planned-tools loop are exactly one
contiguous `[call, result]` pair per validated invocation — the call event
strictly before its result event, both carrying the same fresh
`toolCallId`, the validated tool name and arguments and the invocation's
description — concatenated in the plan's invocation order with no
interleaving (execution is strictly sequential), and invocations dropped
by validation emit nothing. -/
theorem runPlannedLoop_event_pairs (invs : List ToolInvocation) (n : Nat)
    (oracle : Nat → ToolOutcome) (idGen : Nat → String) :
    ∃ pairs : List (List ProgressEvent),
      (runPlannedLoop oracle idGen invs n).2 = pairs.flatten ∧
      List.Forall₂
        (fun (p : List ProgressEvent) (ip : ToolInvocation × ParsedToolParameters) =>
          ∃ cid outcome,
            p = [ProgressEvent.callEv cid (toolNameStr (parsedToolName ip.2))
                   (parsedParamsRecord ip.2) (some ip.1.description),
                 ProgressEvent.resultEv cid (toolNameStr (parsedToolName ip.2))
                   (parsedParamsRecord ip.2) (some ip.1.description) outcome])
        pairs (validatedInvocations invs) := by
  induction invs generalizing n with
  | nil => exact ⟨[], rfl, by simp [validatedInvocations]⟩
  | cons inv rest ih =>
    cases hp : parseInvocationParameters inv with
    | none =>
      obtain ⟨pairs, hjoin, hall⟩ := ih n
      refine ⟨pairs, ?_, ?_⟩
      · simp only [runPlannedLoop, hp]
        exact hjoin
      · simpa [validatedInvocations, List.filterMap_cons, hp] using hall
    | some parsed =>
      have hv : validatedInvocations (inv :: rest) =
          (inv, parsed) :: validatedInvocations rest := by
        simp [validatedInvocations, List.filterMap_cons, hp]
      obtain ⟨pairs, hjoin, hall⟩ := ih (n + 1)
      cases ho : oracle n with
      | ok result =>
        refine ⟨[ProgressEvent.callEv ("call_" ++ idGen n)
                   (toolNameStr (parsedToolName parsed)) (parsedParamsRecord parsed)
                   (some inv.description),
                 ProgressEvent.resultEv ("call_" ++ idGen n)
                   (toolNameStr (parsedToolName parsed)) (parsedParamsRecord parsed)
                   (some inv.description) (EvOutcome.okRes result)] :: pairs, ?_, ?_⟩
        · simp only [runPlannedLoop, hp, ho]
          rw [hjoin]
          rfl
        · rw [hv]
          exact List.Forall₂.cons ⟨"call_" ++ idGen n, EvOutcome.okRes result, rfl⟩ hall
      | thrown t =>
        refine ⟨[ProgressEvent.callEv ("call_" ++ idGen n)
                   (toolNameStr (parsedToolName parsed)) (parsedParamsRecord parsed)
                   (some inv.description),
                 ProgressEvent.resultEv ("call_" ++ idGen n)
                   (toolNameStr (parsedToolName parsed)) (parsedParamsRecord parsed)
                   (some inv.description) (EvOutcome.errRes (thrownToMessage t))] :: pairs,
            ?_, ?_⟩
        · simp only [runPlannedLoop, hp, ho]
          rw [hjoin]
          rfl
        · rw [hv]
          exact List.Forall₂.cons
            ⟨"call_" ++ idGen n, EvOutcome.errRes (thrownToMessage t), rfl⟩ hall

/-- C10: in the recorded executed steps, the j-th executed step's
result/error fields are determined by the j-th tool-call outcome: a
successful call records the result with no error, a throwing call records
`result := null` together with the thrown `Error`'s message — or the fixed
text `"Unknown tool execution error"` when the thrown value is not an
`Error` instance — exactly as `thrownToMessage` prescribes. -/
theorem runPlannedLoop_error_recording (invs : List ToolInvocation) (n : Nat)
    (oracle : Nat → ToolOutcome) (idGen : Nat → String) :
    ((runPlannedLoop oracle idGen invs n).1).map (fun s => (s.result, s.error)) =
      (List.range (validatedInvocations invs).length).map (fun j =>
        match oracle (n + j) with
        | ToolOutcome.ok r => (r, Option.none)
        | ToolOutcome.thrown t => (StepResult.nullRes, some (thrownToMessage t))) ∧
    (∀ m, thrownToMessage (Thrown.errObj m) = m) ∧
    (∀ p, thrownToMessage (Thrown.nonError p) = "Unknown tool execution error") := by
  refine ⟨?_, fun m => rfl, fun p => rfl⟩
  induction invs generalizing n with
  | nil => simp [runPlannedLoop, validatedInvocations]
  | cons inv rest ih =>
    cases hp : parseInvocationParameters inv with
    | none =>
      simp only [runPlannedLoop, hp]
      simpa [validatedInvocations, List.filterMap_cons, hp] using ih n
    | some parsed =>
      have hv : validatedInvocations (inv :: rest) =
          (inv, parsed) :: validatedInvocations rest := by
        simp [validatedInvocations, List.filterMap_cons, hp]
      rw [hv]
      cases ho : oracle n with
      | ok result =>
        simp only [runPlannedLoop, hp, ho, List.map_cons, List.length_cons,
          List.range_succ_eq_map, List.map_map]
        simp only [Nat.add_zero, ho]
        congr 1
        rw [ih (n + 1)]
        apply List.map_congr_left
        intro j _
        have hnj : n + 1 + j = n + Nat.succ j := by omega
        simp [Function.comp, hnj]
      | thrown t =>
        simp only [runPlannedLoop, hp, ho, List.map_cons, List.length_cons,
          List.range_succ_eq_map, List.map_map]
        simp only [Nat.add_zero, ho]
        congr 1
        rw [ih (n + 1)]
        apply List.map_congr_left
        intro j _
        have hnj : n + 1 + j = n + Nat.succ j := by omega
        simp [Function.comp, hnj]

/-! ## Zero usable invocations and the orchestrator (claims C1, C5) -/

theorem runPlannedLoop_all_invalid (oracle : Nat → ToolOutcome) (idGen : Nat → String)
    (invs : List ToolInvocation) (n : Nat)
    (h : ∀ inv ∈ invs, parseInvocationParameters inv = Option.none) :
    runPlannedLoop oracle idGen invs n = ([], []) := by
  induction invs generalizing n with
  | nil => rfl
  | cons inv rest ih =>
    simp only [runPlannedLoop, h inv (List.mem_cons_self _ _)]
    exact ih n fun i hi => h i (List.mem_cons_of_mem _ hi)

theorem buildExecutionSummary_nil (loc : LocalizationBundle) :
    buildExecutionSummary [] loc =
      { summary := loc.researchSummaryHeading ++ ":\n\n" ++ loc.noToolsExecuted,
        sources := [] } := by
  simp [buildExecutionSummary, summarizePass, formatSourcesDirectory]

theorem executePlannedTools_no_usable (plan : ToolPlan) (language : SupportedLanguage)
    (oracle : Nat → ToolOutcome) (idGen : Nat → String)
    (h : ∀ inv ∈ plan.toolInvocations,
      inv.tool = ToolKind.none ∨ parseInvocationParameters inv = Option.none) :
    executePlannedTools plan language oracle idGen =
      (some { toolCallDataAnn := some
                { toolCallId := "agent_pipeline", toolName := "agent", args := Option.none,
                  payload := AnnPayload.planned plan.plan plan.toolInvocations
                    (getPlanFinalInstruction plan (getLocalization language)) [] [] },
              toolCallMessages := createToolResponderMessages plan []
                (buildExecutionSummary [] (getLocalization language))
                (getLocalization language)
                (getPlanFinalInstruction plan (getLocalization language)) },
        []) := by
  have hfilter_parse : ∀ inv ∈ plan.toolInvocations.filter
      (fun invocation => supportedToolNames.contains invocation.tool),
      parseInvocationParameters inv = Option.none := by
    intro inv hi
    obtain ⟨hmem, hpred⟩ := List.mem_filter.mp hi
    rcases h inv hmem with htool | hparse
    · exfalso
      rw [htool] at hpred
      exact absurd hpred (by decide)
    · exact hparse
  have hcond : (decide ((plan.toolInvocations.filter
        (fun invocation => supportedToolNames.contains invocation.tool)).length = 0) &&
      decide ((plan.toolInvocations.filter
        (fun invocation => supportedToolNames.contains invocation.tool)).length > 0)) =
        false := by
    by_cases h0 : (plan.toolInvocations.filter
        (fun invocation => supportedToolNames.contains invocation.tool)).length = 0
    · simp [h0]
    · simp [h0]
  have hloop := runPlannedLoop_all_invalid oracle idGen
    (plan.toolInvocations.filter fun invocation => supportedToolNames.contains invocation.tool)
    0 hfilter_parse
  unfold executePlannedTools
  simp only [hcond, Bool.false_eq_true, if_false, hloop]
  rw [buildExecutionSummary_nil]

/-- C1 (amended): when the normalized plan yields zero usable invocations —
the planner proposed none, all proposed invocations use unsupported tools,
or every supported invocation fails parameter validation — `executeToolCall`
does NOT divert to the fallback search: it returns the (non-null) result of
`executePlannedTools`, a three-message responder triple whose summary
message reads "research summary heading: no tools executed" in the detected
language, with the `agent_pipeline` data record and no progress events (so
no search was run); the fallback path is taken only when the planner call
itself throws. -/
theorem executeToolCall_no_usable_invocations (msgs : List CoreMessage) (raw : ToolPlan)
    (oracle : Nat → ToolOutcome) (fallbackOutcome : ToolOutcome) (idGen : Nat → String)
    (_hText : getLastUserText msgs ≠ "")
    (hUnusable : ∀ inv ∈ (normalizeToolPlan raw).toolInvocations,
      inv.tool = ToolKind.none ∨ parseInvocationParameters inv = Option.none) :
    ∃ r, executeToolCall msgs true (PlannerOutcome.generated raw) oracle fallbackOutcome
          idGen = ([], OrchestratorOutcome.returned r) ∧
      r.toolCallMessages.length = 3 ∧
      (∃ a, r.toolCallDataAnn = some a ∧ a.toolCallId = "agent_pipeline" ∧
        a.toolName = "agent") ∧
      r.toolCallMessages.get? 1 = some
        { role := Role.assistant,
          content := MessageContent.str
            ((getLocalization (detectLanguageFromText (getLastUserText msgs))).researchSummaryHeading ++
              ":\n\n" ++
              (getLocalization
                (detectLanguageFromText (getLastUserText msgs))).noToolsExecuted) } := by
  have hexec := executePlannedTools_no_usable (normalizeToolPlan raw)
    (detectLanguageFromText (getLastUserText msgs)) oracle idGen hUnusable
  refine ⟨{ toolCallDataAnn := some
              { toolCallId := "agent_pipeline", toolName := "agent", args := Option.none,
                payload := AnnPayload.planned (normalizeToolPlan raw).plan
                  (normalizeToolPlan raw).toolInvocations
                  (getPlanFinalInstruction (normalizeToolPlan raw)
                    (getLocalization (detectLanguageFromText (getLastUserText msgs)))) [] [] },
            toolCallMessages := createToolResponderMessages (normalizeToolPlan raw) []
              (buildExecutionSummary []
                (getLocalization (detectLanguageFromText (getLastUserText msgs))))
              (getLocalization (detectLanguageFromText (getLastUserText msgs)))
              (getPlanFinalInstruction (normalizeToolPlan raw)
                (getLocalization (detectLanguageFromText (getLastUserText msgs)))) },
    ?_, rfl, ⟨_, rfl, rfl, rfl⟩, ?_⟩
  · unfold executeToolCall
    simp only [Bool.not_true, Bool.false_eq_true, if_false, hexec]
  · show (createToolResponderMessages _ _ _ _ _).get? 1 = _
    rw [buildExecutionSummary_nil]
    rfl

/-- C1 counterexample: with a non-empty last user message and a plan with
zero invocations (the planner decided no tools are needed), the
orchestrator returns the `executePlannedTools` "no tools were executed"
triple with the `agent_pipeline` data record and emits NO progress events —
it does not return the Fallback path's single-search output (which differs
and would have emitted a search call event). -/
theorem executeToolCall_no_usable_counterexample :
    (executeToolCall helloMsgs true (PlannerOutcome.generated emptyToolPlan)
        (fun _ => ToolOutcome.ok StepResult.nullRes) (ToolOutcome.ok oneSearchResult)
        (fun _ => "gid")).1 = [] ∧
    (executeToolCall helloMsgs true (PlannerOutcome.generated emptyToolPlan)
        (fun _ => ToolOutcome.ok StepResult.nullRes) (ToolOutcome.ok oneSearchResult)
        (fun _ => "gid")).2 =
      OrchestratorOutcome.returned
        { toolCallDataAnn := some
            { toolCallId := "agent_pipeline", toolName := "agent", args := Option.none,
              payload := AnnPayload.planned [] []
                "Please respond to the user using the collected information." [] [] },
          toolCallMessages :=
            [ { role := Role.assistant, content := MessageContent.str
                  "Planned approach:\nNo explicit high-level plan provided by the planner.\n\nExecuted tool runs:\nNo tools were executed." },
              { role := Role.assistant, content := MessageContent.str
                  "External research summary:\n\nNo tools were executed." },
              { role := Role.user, content := MessageContent.str
                  "Please respond to the user using the collected information.\n\nNo external sources were gathered. Answer using your existing knowledge and note the limitation." } ] } ∧
    (executeToolCall helloMsgs true (PlannerOutcome.generated emptyToolPlan)
        (fun _ => ToolOutcome.ok StepResult.nullRes) (ToolOutcome.ok oneSearchResult)
        (fun _ => "gid")).2 ≠
      (fallbackSearch helloMsgs (detectLanguageFromText (getLastUserText helloMsgs))
        (ToolOutcome.ok oneSearchResult) (fun _ => "gid")).2 := by
  refine ⟨by decide, by decide, by decide⟩

/-- Witness for `executeToolCall_no_usable_invocations`: a plan whose only
invocation is a search with empty parameters (failing validation). -/
theorem executeToolCall_no_usable_invocations_witness :
    (getLastUserText helloMsgs ≠ "") ∧
    (∀ inv ∈ (normalizeToolPlan
        { plan := [],
          toolInvocations := [{ id := "s1", tool := ToolKind.search,
                                description := "find", parameters := [] }],
          finalResponseInstruction := "" }).toolInvocations,
      inv.tool = ToolKind.none ∨ parseInvocationParameters inv = Option.none) ∧
    (∃ r, executeToolCall helloMsgs true (PlannerOutcome.generated
          { plan := [],
            toolInvocations := [{ id := "s1", tool := ToolKind.search,
                                  description := "find", parameters := [] }],
            finalResponseInstruction := "" })
          (fun _ => ToolOutcome.ok StepResult.nullRes) (ToolOutcome.ok oneSearchResult)
          (fun _ => "gid") = ([], OrchestratorOutcome.returned r) ∧
      r.toolCallMessages.length = 3 ∧
      (∃ a, r.toolCallDataAnn = some a ∧ a.toolCallId = "agent_pipeline" ∧
        a.toolName = "agent") ∧
      r.toolCallMessages.get? 1 = some
        { role := Role.assistant,
          content := MessageContent.str
            ((getLocalization (detectLanguageFromText (getLastUserText helloMsgs))).researchSummaryHeading ++
              ":\n\n" ++
              (getLocalization
                (detectLanguageFromText (getLastUserText helloMsgs))).noToolsExecuted) }) := by
  refine ⟨by decide, by decide, ?_⟩
  exact executeToolCall_no_usable_invocations helloMsgs
    { plan := [],
      toolInvocations := [{ id := "s1", tool := ToolKind.search,
                            description := "find", parameters := [] }],
      finalResponseInstruction := "" }
    (fun _ => ToolOutcome.ok StepResult.nullRes) (ToolOutcome.ok oneSearchResult)
    (fun _ => "gid") (by decide) (by decide)

theorem decide_and_zero_pos (n : Nat) :
    (decide (n = 0) && decide (n > 0)) = false := by
  by_cases h : n = 0 <;> simp [h]

theorem executePlannedTools_returns_some (plan : ToolPlan) (language : SupportedLanguage)
    (oracle : Nat → ToolOutcome) (idGen : Nat → String) :
    ∃ res events, executePlannedTools plan language oracle idGen = (some res, events) ∧
      res.toolCallMessages.length = 3 ∧ res.toolCallDataAnn.isSome = true := by
  unfold executePlannedTools
  simp only [decide_and_zero_pos, Bool.false_eq_true, if_false]
  exact ⟨_, _, rfl, rfl, rfl⟩

/-- C5 (amended): `executeToolCall` returns the empty pair
`{toolCallDataAnnotation: null, toolCallMessages: []}` *exactly* when search
mode is off, or when control reached the fallback (the planner threw) and
the last user text is the empty string — a whitespace-only last user text
is truthy in JS and triggers a real fallback search instead; and when the
fallback search itself throws, `executeToolCall` does NOT absorb the error
into an empty pair: the rejection propagates to the caller. -/
theorem executeToolCall_empty_pair_characterization :
    (∀ (msgs : List CoreMessage) (planner : PlannerOutcome) (oracle : Nat → ToolOutcome)
        (fallbackOutcome : ToolOutcome) (idGen : Nat → String) (searchMode : Bool),
      ((executeToolCall msgs searchMode planner oracle fallbackOutcome idGen).2 =
          OrchestratorOutcome.returned
            { toolCallDataAnn := Option.none, toolCallMessages := [] }) ↔
        (searchMode = false ∨
          ((∃ t, planner = PlannerOutcome.failed t) ∧ getLastUserText msgs = ""))) ∧
    (∀ (msgs : List CoreMessage) (oracle : Nat → ToolOutcome) (idGen : Nat → String)
        (t t' : Thrown),
      getLastUserText msgs ≠ "" →
      (executeToolCall msgs true (PlannerOutcome.failed t') oracle
          (ToolOutcome.thrown t) idGen).2 = OrchestratorOutcome.threw t) := by
  constructor
  · intro msgs planner oracle fallbackOutcome idGen searchMode
    cases searchMode with
    | false => simp [executeToolCall]
    | true =>
      cases planner with
      | generated raw =>
        obtain ⟨res, events, hexec, hlen, _⟩ :=
          executePlannedTools_returns_some (normalizeToolPlan raw)
            (detectLanguageFromText (getLastUserText msgs)) oracle idGen
        simp only [executeToolCall, Bool.not_true, Bool.false_eq_true, if_false, hexec]
        constructor
        · intro h
          exfalso
          have hres := OrchestratorOutcome.returned.inj h
          rw [hres] at hlen
          simp at hlen
        · rintro (h | ⟨⟨t, ht⟩, _⟩)
          · exact absurd h (by decide)
          · exact absurd ht (by simp)
      | failed t =>
        by_cases hq : getLastUserText msgs = ""
        · simp [executeToolCall, fallbackSearch, hq]
        · cases fallbackOutcome with
          | thrown tf => simp [executeToolCall, fallbackSearch, hq]
          | ok result => simp [executeToolCall, fallbackSearch, hq]
  · intro msgs oracle idGen t t' hq
    simp [executeToolCall, fallbackSearch, hq]

/-- C5 counterexample: when the planner fails and the fallback search
throws, `executeToolCall` rejects with that error instead of returning the
empty pair; and when the last user text is whitespace-only (truthy in JS)
the fallback search runs and a non-empty triple is returned, not the empty
pair. -/
theorem executeToolCall_total_failure_counterexample :
    (executeToolCall helloMsgs true (PlannerOutcome.failed (Thrown.errObj "plan failed"))
        (fun _ => ToolOutcome.ok StepResult.nullRes)
        (ToolOutcome.thrown (Thrown.errObj "boom")) (fun _ => "gid")).2 =
      OrchestratorOutcome.threw (Thrown.errObj "boom") ∧
    (executeToolCall wsOnlyMsgs true (PlannerOutcome.failed (Thrown.errObj "plan failed"))
        (fun _ => ToolOutcome.ok StepResult.nullRes)
        (ToolOutcome.ok oneSearchResult) (fun _ => "gid")).2 ≠
      OrchestratorOutcome.returned
        { toolCallDataAnn := Option.none, toolCallMessages := [] } := by
  refine ⟨by decide, by decide⟩

/-- Witness for `executeToolCall_empty_pair_characterization`: search mode
off yields the empty pair; with search mode on, a non-empty last user text
and a throwing fallback search, the throw propagates. -/
theorem executeToolCall_empty_pair_witness :
    ((executeToolCall helloMsgs false (PlannerOutcome.failed (Thrown.errObj "x"))
        (fun _ => ToolOutcome.ok StepResult.nullRes) (ToolOutcome.ok oneSearchResult)
        (fun _ => "gid")).2 =
      OrchestratorOutcome.returned
        { toolCallDataAnn := Option.none, toolCallMessages := [] }) ∧
    (getLastUserText helloMsgs ≠ "") ∧
    ((executeToolCall helloMsgs true (PlannerOutcome.failed (Thrown.errObj "x"))
        (fun _ => ToolOutcome.ok StepResult.nullRes)
        (ToolOutcome.thrown (Thrown.nonError "str")) (fun _ => "gid")).2 =
      OrchestratorOutcome.threw (Thrown.nonError "str")) := by
  refine ⟨?_, by decide, ?_⟩
  · exact (executeToolCall_empty_pair_characterization.1 helloMsgs
      (PlannerOutcome.failed (Thrown.errObj "x"))
      (fun _ => ToolOutcome.ok StepResult.nullRes) (ToolOutcome.ok oneSearchResult)
      (fun _ => "gid") false).mpr (Or.inl rfl)
  · exact executeToolCall_empty_pair_characterization.2 helloMsgs
      (fun _ => ToolOutcome.ok StepResult.nullRes) (fun _ => "gid")
      (Thrown.nonError "str") (Thrown.errObj "x") (by decide)

/-! ## Invocation id assignment (claims C3, C4) -/

theorem normalizeInvocationId_fst (inv : ToolInvocation) (index : Nat)
    (seen : String → Nat) :
    (normalizeInvocationId inv.id index seen).1 =
      (if seen (invocationBaseId inv index) = 0 then invocationBaseId inv index
       else invocationBaseId inv index ++ "-" ++
         natRepr (seen (invocationBaseId inv index) + 1)) := by
  by_cases h : seen (invocationBaseId inv index) = 0 <;>
    simp [normalizeInvocationId, invocationBaseId, h] <;>
    simp [normalizeInvocationId, invocationBaseId] at h ⊢ <;>
    simp [h]

theorem normalizeInvocationId_snd (inv : ToolInvocation) (index : Nat)
    (seen : String → Nat) (key : String) :
    (normalizeInvocationId inv.id index seen).2 key =
      (if key = invocationBaseId inv index
       then seen (invocationBaseId inv index) + 1 else seen key) := by
  have hfun : (normalizeInvocationId inv.id index seen).2 = fun key =>
      if key = invocationBaseId inv index
      then seen (invocationBaseId inv index) + 1 else seen key := by
    simp only [normalizeInvocationId, invocationBaseId]
    split <;> split <;> rfl
  rw [hfun]

theorem assignInvocationIds_ids (invs : List ToolInvocation) (index : Nat)
    (seen : String → Nat) (hist : List String)
    (hseen : ∀ b, seen b = hist.count b) :
    (assignInvocationIds invs index seen).map (fun i => i.id) =
      idsSpec hist (baseIdsFrom invs index) := by
  induction invs generalizing index seen hist with
  | nil => rfl
  | cons inv rest ih =>
    rw [show baseIdsFrom (inv :: rest) index =
      invocationBaseId inv index :: baseIdsFrom rest (index + 1) from rfl]
    rw [idsSpec]
    rw [show (assignInvocationIds (inv :: rest) index seen).map (fun i => i.id) =
      (normalizeInvocationId inv.id index seen).1 ::
        (assignInvocationIds rest (index + 1)
          (normalizeInvocationId inv.id index seen).2).map (fun i => i.id) from rfl]
    congr 1
    · rw [normalizeInvocationId_fst, hseen (invocationBaseId inv index)]
    · apply ih
      intro b
      rw [normalizeInvocationId_snd]
      by_cases hb : b = invocationBaseId inv index
      · rw [if_pos hb, hb, hseen (invocationBaseId inv index), List.count_append]
        simp
      · rw [if_neg hb, hseen b, List.count_append]
        have hzero : ([invocationBaseId inv index] : List String).count b = 0 :=
          List.count_eq_zero.mpr (by simp [hb])
        omega

theorem mem_idsSpec (x : String) (bs : List String) :
    ∀ hist : List String, x ∈ idsSpec hist bs →
    ∃ b ∈ bs, ∃ c, hist.count b ≤ c ∧ c + 1 ≤ hist.length + bs.length ∧
      x = (if c = 0 then b else b ++ "-" ++ natRepr (c + 1)) := by
  induction bs with
  | nil => intro hist h; simp [idsSpec] at h
  | cons b bs ih =>
    intro hist h
    rw [idsSpec] at h
    rcases List.mem_cons.mp h with hx | hx
    · refine ⟨b, by simp, hist.count b, le_refl _, ?_, hx⟩
      have := List.count_le_length b hist
      simp only [List.length_cons]
      omega
    · obtain ⟨b', hb', c, hcount, hbound, hxeq⟩ := ih (hist ++ [b]) hx
      refine ⟨b', by simp [hb'], c, ?_, ?_, hxeq⟩
      · have : hist.count b' ≤ (hist ++ [b]).count b' := by
          rw [List.count_append]; omega
        omega
      · simp only [List.length_append, List.length_cons, List.length_nil, List.length_cons] at hbound ⊢
        omega

theorem append_dash_natRepr_data (b : String) (k : Nat) :
    (b ++ "-" ++ natRepr k).data = b.data ++ '-' :: natDigits k := by
  rw [String.data_append, String.data_append]
  simp [natRepr_data]

theorem self_ne_suffixed (b : String) (k : Nat) : b ≠ b ++ "-" ++ natRepr k := by
  intro h
  have hd := congrArg String.data h
  rw [append_dash_natRepr_data] at hd
  have hlen := congrArg List.length hd
  simp [List.length_append] at hlen

theorem digits_dash_split (d₁ : List Char) :
    ∀ (d₂ r₁ r₂ : List Char), (∀ c ∈ d₁, c ≠ '-') → (∀ c ∈ d₂, c ≠ '-') →
    d₁ ++ '-' :: r₁ = d₂ ++ '-' :: r₂ → d₁ = d₂ ∧ r₁ = r₂ := by
  induction d₁ with
  | nil =>
    intro d₂ r₁ r₂ _ hd₂ h
    cases d₂ with
    | nil => simpa using h
    | cons c t =>
      exfalso
      rw [List.nil_append, List.cons_append] at h
      have := (List.cons.injEq _ _ _ _).mp h
      exact hd₂ c (by simp) this.1.symm
  | cons c t ih =>
    intro d₂ r₁ r₂ hd₁ hd₂ h
    cases d₂ with
    | nil =>
      exfalso
      rw [List.nil_append, List.cons_append] at h
      have := (List.cons.injEq _ _ _ _).mp h
      exact hd₁ c (by simp) this.1
    | cons c' t' =>
      rw [List.cons_append, List.cons_append] at h
      have hh := (List.cons.injEq _ _ _ _).mp h
      obtain ⟨h1, h2⟩ := ih t' r₁ r₂ (fun x hx => hd₁ x (by simp [hx]))
        (fun x hx => hd₂ x (by simp [hx])) hh.2
      exact ⟨by rw [hh.1, h1], h2⟩

theorem suffixed_eq_suffixed (b₁ b₂ : String) (k₁ k₂ : Nat)
    (h : b₁ ++ "-" ++ natRepr k₁ = b₂ ++ "-" ++ natRepr k₂) : b₁ = b₂ ∧ k₁ = k₂ := by
  have hd := congrArg String.data h
  rw [append_dash_natRepr_data, append_dash_natRepr_data] at hd
  have hrev := congrArg List.reverse hd
  rw [List.reverse_append, List.reverse_append, List.reverse_cons, List.reverse_cons] at hrev
  rw [List.append_assoc, List.append_assoc, List.singleton_append, List.singleton_append]
    at hrev
  obtain ⟨hdig, hrest⟩ := digits_dash_split (natDigits k₁).reverse (natDigits k₂).reverse
    b₁.data.reverse b₂.data.reverse
    (fun c hc => natDigits_no_dash k₁ c (List.mem_reverse.mp hc))
    (fun c hc => natDigits_no_dash k₂ c (List.mem_reverse.mp hc)) hrev
  constructor
  · apply String.ext
    have := congrArg List.reverse hrest
    simpa using this
  · apply natDigits_inj
    have := congrArg List.reverse hdig
    simpa using this

theorem idsSpec_nodup (bases : List String) :
    ∀ hist : List String,
    (∀ b₁ ∈ bases, ∀ b₂ ∈ bases, ∀ k, k ≤ hist.length + bases.length → 2 ≤ k →
      b₁ ≠ b₂ ++ "-" ++ natRepr k) →
    (idsSpec hist bases).Nodup := by
  induction bases with
  | nil => intro hist _; simp [idsSpec]
  | cons b bs ih =>
    intro hist H
    rw [idsSpec]
    refine List.nodup_cons.mpr ⟨?_, ?_⟩
    · intro hx
      obtain ⟨b', hb', c, hge, hbound, hxeq⟩ := mem_idsSpec _ bs (hist ++ [b]) hx
      simp only [List.length_append, List.length_cons, List.length_nil, List.length_cons] at hbound
      have hcount_b' : (hist ++ [b]).count b' = hist.count b' +
          (if (b == b') = true then 1 else 0) := by
        rw [List.count_append]
        simp [List.count_cons]
      by_cases hc0 : c = 0
      · -- the later occurrence kept its bare base id, so b' was unseen: b' ≠ b
        subst hc0
        rw [if_pos rfl] at hxeq
        have hb'b : b' ≠ b := by
          intro hbb
          subst hbb
          rw [List.count_append] at hge
          simp at hge
        by_cases hcb : hist.count b = 0
        · rw [if_pos hcb] at hxeq
          exact hb'b hxeq.symm
        · rw [if_neg hcb] at hxeq
          -- b' = b ++ "-" ++ natRepr (hist.count b + 1)
          have h2 : 2 ≤ hist.count b + 1 := by omega
          have hkb : hist.count b + 1 ≤ hist.length + (b :: bs).length := by
            have := List.count_le_length b hist
            simp only [List.length_cons]
            omega
          exact H b' (by simp [hb']) b (by simp) (hist.count b + 1) hkb h2 hxeq.symm
      · rw [if_neg hc0] at hxeq
        have h2c : 2 ≤ c + 1 := by omega
        have hkc : c + 1 ≤ hist.length + (b :: bs).length := by
          simp only [List.length_cons]; omega
        by_cases hcb : hist.count b = 0
        · rw [if_pos hcb] at hxeq
          exact H b (by simp) b' (by simp [hb']) (c + 1) hkc h2c hxeq
        · rw [if_neg hcb] at hxeq
          by_cases hbb : b = b'
          · subst hbb
            obtain ⟨_, hk⟩ := suffixed_eq_suffixed _ _ _ _ hxeq
            rw [hcount_b'] at hge
            simp at hge
            omega
          · obtain ⟨hbeq, _⟩ := suffixed_eq_suffixed _ _ _ _ hxeq
            exact hbb hbeq
    · apply ih (hist ++ [b])
      intro b₁ hb₁ b₂ hb₂ k hk h2
      apply H b₁ (by simp [hb₁]) b₂ (by simp [hb₂]) k ?_ h2
      simp only [List.length_append, List.length_cons, List.length_nil, List.length_cons] at hk ⊢
      omega

/-- C4 (amended): the ids in the output of `normalizeToolPlan` follow the
described mechanism — blank ids get the positional fallback `step-<n>`,
whitespace runs are replaced by `-`, and an id repeating an earlier base id
is suffixed `-2`, `-3`, … in first-seen order — and they are pairwise
distinct PROVIDED no invocation's base id coincides with another base id
followed by `-` and a decimal numeral between 2 and the invocation count;
without that proviso a suffixed id can collide with a pre-existing id (see
the counterexample). -/
theorem normalizeToolPlan_id_uniqueness (p : ToolPlan)
    (H : ∀ b₁ ∈ baseIdsFrom p.toolInvocations 1, ∀ b₂ ∈ baseIdsFrom p.toolInvocations 1,
        ∀ k, k ≤ (baseIdsFrom p.toolInvocations 1).length → 2 ≤ k →
        b₁ ≠ b₂ ++ "-" ++ natRepr k) :
    ((normalizeToolPlan p).toolInvocations.map (fun i => i.id)).Nodup := by
  have hids : (assignInvocationIds p.toolInvocations 1 (fun _ => 0)).map (fun i => i.id) =
      idsSpec [] (baseIdsFrom p.toolInvocations 1) :=
    assignInvocationIds_ids _ _ _ [] (fun b => rfl)
  have hnodup : ((assignInvocationIds p.toolInvocations 1 (fun _ => 0)).map
      (fun i => i.id)).Nodup := by
    rw [hids]
    apply idsSpec_nodup _ []
    intro b₁ hb₁ b₂ hb₂ k hk h2
    exact H b₁ hb₁ b₂ hb₂ k (by simpa using hk) h2
  have hsub : ((normalizeToolPlan p).toolInvocations.map (fun i => i.id)).Sublist
      ((assignInvocationIds p.toolInvocations 1 (fun _ => 0)).map (fun i => i.id)) := by
    apply List.Sublist.map
    exact List.filter_sublist _
  exact hnodup.sublist hsub

/-- C4 counterexample: in `collisionPlan` (invocation ids `a`, `a`, `a-2`)
the second invocation's collision suffix produces `a-2`, which collides
with the third invocation's own id — `normalizeToolPlan` outputs the ids
`[a, a-2, a-2]`, which are NOT pairwise distinct. -/
theorem normalizeToolPlan_id_uniqueness_counterexample :
    ((normalizeToolPlan collisionPlan).toolInvocations.map (fun i => i.id)) =
      ["a", "a-2", "a-2"] ∧
    ¬ ((normalizeToolPlan collisionPlan).toolInvocations.map (fun i => i.id)).Nodup := by
  refine ⟨by decide, by decide⟩

/-- Witness for `normalizeToolPlan_id_uniqueness` at a plan with a genuine
id collision (`a`, `a`) that is correctly disambiguated to `a`, `a-2`. -/
theorem normalizeToolPlan_id_uniqueness_witness :
    (∀ b₁ ∈ baseIdsFrom ({ plan := [], toolInvocations := [{ id := "a", tool := ToolKind.search, description := "d", parameters := [] }, { id := "a", tool := ToolKind.search, description := "d", parameters := [] }], finalResponseInstruction := "x" } : ToolPlan).toolInvocations 1,
      ∀ b₂ ∈ baseIdsFrom ({ plan := [], toolInvocations := [{ id := "a", tool := ToolKind.search, description := "d", parameters := [] }, { id := "a", tool := ToolKind.search, description := "d", parameters := [] }], finalResponseInstruction := "x" } : ToolPlan).toolInvocations 1,
      ∀ k, k ≤ (baseIdsFrom ({ plan := [], toolInvocations := [{ id := "a", tool := ToolKind.search, description := "d", parameters := [] }, { id := "a", tool := ToolKind.search, description := "d", parameters := [] }], finalResponseInstruction := "x" } : ToolPlan).toolInvocations 1).length → 2 ≤ k →
        b₁ ≠ b₂ ++ "-" ++ natRepr k) ∧
    ((normalizeToolPlan ({ plan := [], toolInvocations := [{ id := "a", tool := ToolKind.search, description := "d", parameters := [] }, { id := "a", tool := ToolKind.search, description := "d", parameters := [] }], finalResponseInstruction := "x" } : ToolPlan)).toolInvocations.map (fun i => i.id)).Nodup := by
  refine ⟨by decide, normalizeToolPlan_id_uniqueness _ (by decide)⟩

theorem mem_assignInvocationIds (invs : List ToolInvocation) :
    ∀ (index : Nat) (seen : String → Nat) (inv' : ToolInvocation),
    inv' ∈ assignInvocationIds invs index seen →
    ∃ inv ∈ invs, ∃ i : Nat,
      (inv'.id = invocationBaseId inv i ∨
        ∃ k, inv'.id = invocationBaseId inv i ++ "-" ++ natRepr k) ∧
      inv'.tool = inv.tool ∧
      inv'.description = jsTrim inv.description ∧
      inv'.parameters = normalizeInvocationParameters inv.parameters := by
  induction invs with
  | nil => intro _ _ _ h; simp [assignInvocationIds] at h
  | cons inv rest ih =>
    intro index seen inv' h
    rcases List.mem_cons.mp h with heq | h'
    · refine ⟨inv, by simp, index, ?_, by rw [heq], by rw [heq], by rw [heq]⟩
      have hid' : ({ inv with
          id := (normalizeInvocationId inv.id index seen).1,
          description := jsTrim inv.description,
          parameters := normalizeInvocationParameters inv.parameters } :
            ToolInvocation).id = (normalizeInvocationId inv.id index seen).1 := rfl
      rw [heq, hid', normalizeInvocationId_fst]
      split
      · exact Or.inl rfl
      · exact Or.inr ⟨_, rfl⟩
    · obtain ⟨inv₀, hmem, i, hid, htool, hdesc, hparams⟩ := ih _ _ _ h'
      exact ⟨inv₀, by simp [hmem], i, hid, htool, hdesc, hparams⟩

theorem step_dash_wsFree : ∀ c ∈ ("step-" : String).data, isJsWs c = false := by
  decide

theorem invocationBaseId_wsFree (inv : ToolInvocation) (index : Nat) :
    ∀ c ∈ (invocationBaseId inv index).data, isJsWs c = false := by
  intro c
  simp only [invocationBaseId]
  split
  · intro hc
    exact jsReplaceWsDash_wsFree _ c hc
  · intro hc
    rw [String.data_append] at hc
    rcases List.mem_append.mp hc with h | h
    · exact step_dash_wsFree c h
    · exact natDigits_wsFree index c h

theorem invocationBaseId_ne_empty (inv : ToolInvocation) (index : Nat) :
    invocationBaseId inv index ≠ "" := by
  simp only [invocationBaseId]
  split
  · next h =>
    apply jsReplaceWsDash_ne_empty
    apply ne_empty_of_data_ne_nil
    intro hnil
    rw [show (jsTrim inv.id).length = (jsTrim inv.id).data.length from rfl, hnil] at h
    simp at h
  · apply ne_empty_of_data_ne_nil
    rw [String.data_append]
    simp

theorem suffixed_wsFree (b : String) (k : Nat)
    (hb : ∀ c ∈ b.data, isJsWs c = false) :
    ∀ c ∈ (b ++ "-" ++ natRepr k).data, isJsWs c = false := by
  intro c hc
  rw [append_dash_natRepr_data] at hc
  rcases List.mem_append.mp hc with h | h
  · exact hb c h
  · rcases List.mem_cons.mp h with rfl | h
    · decide
    · exact natDigits_wsFree k c h

theorem suffixed_ne_empty (b : String) (k : Nat) : b ++ "-" ++ natRepr k ≠ "" := by
  apply ne_empty_of_data_ne_nil
  rw [append_dash_natRepr_data]
  simp

theorem assign_output_id_props (invs : List ToolInvocation) (index : Nat)
    (seen : String → Nat) (inv' : ToolInvocation)
    (h : inv' ∈ assignInvocationIds invs index seen) :
    inv'.id ≠ "" ∧ ∀ c ∈ inv'.id.data, isJsWs c = false := by
  obtain ⟨inv₀, _, i, hid, _, _, _⟩ := mem_assignInvocationIds invs index seen inv' h
  rcases hid with hid | ⟨k, hid⟩
  · rw [hid]
    exact ⟨invocationBaseId_ne_empty _ _, invocationBaseId_wsFree _ _⟩
  · rw [hid]
    exact ⟨suffixed_ne_empty _ _,
      suffixed_wsFree _ _ (invocationBaseId_wsFree _ _)⟩

theorem normalizeInvocationParameters_idem (ps : List (String × JVal)) :
    normalizeInvocationParameters (normalizeInvocationParameters ps) =
      normalizeInvocationParameters ps := by
  apply List.filter_eq_self.mpr
  intro kv hkv
  exact (List.mem_filter.mp hkv).2

theorem assignInvocationIds_fixed (invs : List ToolInvocation) :
    ∀ (index : Nat) (seen : String → Nat),
    (∀ inv ∈ invs, inv.id ≠ "" ∧ (∀ c ∈ inv.id.data, isJsWs c = false) ∧
      jsTrim inv.description = inv.description ∧
      normalizeInvocationParameters inv.parameters = inv.parameters) →
    (invs.map (fun i => i.id)).Nodup →
    (∀ inv ∈ invs, seen inv.id = 0) →
    assignInvocationIds invs index seen = invs := by
  induction invs with
  | nil => intro _ _ _ _ _; rfl
  | cons inv rest ih =>
    intro index seen hprops hnodup hseen
    obtain ⟨hne, hws, hdesc, hparams⟩ := hprops inv (List.mem_cons_self _ _)
    have htrim : jsTrim inv.id = inv.id := jsTrim_of_wsFree _ hws
    have hrepl : jsReplaceWsDash inv.id = inv.id := by
      apply String.ext
      exact replaceWsRunsAux_of_wsFree _ _ _ hws
    have hlenpos : (jsTrim inv.id).length > 0 := by
      rw [htrim]
      have hd := data_ne_nil_of_ne_empty _ hne
      rw [show inv.id.length = inv.id.data.length from rfl]
      cases hd2 : inv.id.data with
      | nil => exact absurd hd2 hd
      | cons c l => simp
    have hocc : seen inv.id = 0 := hseen inv (List.mem_cons_self _ _)
    have hbase : invocationBaseId inv index = inv.id := by
      simp only [invocationBaseId]
      rw [if_pos hlenpos, htrim, hrepl]
    have hfst : (normalizeInvocationId inv.id index seen).1 = inv.id := by
      rw [normalizeInvocationId_fst, hbase, hocc, if_pos rfl]
    have hsnd : ∀ k, (normalizeInvocationId inv.id index seen).2 k =
        if k = inv.id then 1 else seen k := by
      intro k
      rw [normalizeInvocationId_snd, hbase, hocc]
    rw [show assignInvocationIds (inv :: rest) index seen =
      ({ inv with
          id := (normalizeInvocationId inv.id index seen).1,
          description := jsTrim inv.description,
          parameters := normalizeInvocationParameters inv.parameters } :
        ToolInvocation) ::
        assignInvocationIds rest (index + 1)
          (normalizeInvocationId inv.id index seen).2 from rfl]
    have hhead : ({ inv with
        id := (normalizeInvocationId inv.id index seen).1,
        description := jsTrim inv.description,
        parameters := normalizeInvocationParameters inv.parameters } :
          ToolInvocation) = inv := by
      rw [hfst, hdesc, hparams]
    rw [hhead]
    congr 1
    apply ih (index + 1) _
      (fun i hi => hprops i (List.mem_cons_of_mem _ hi))
      ((List.nodup_cons.mp (by simpa using hnodup)).2)
    intro i hi
    rw [hsnd i.id]
    have hne_id : i.id ≠ inv.id := by
      intro hcontra
      have hmem : inv.id ∈ rest.map (fun x => x.id) :=
        List.mem_map.mpr ⟨i, hi, hcontra⟩
      exact (List.nodup_cons.mp (by simpa using hnodup)).1 hmem
    rw [if_neg hne_id]
    exact hseen i (List.mem_cons_of_mem _ hi)

theorem idsSpec_of_nodup (bs : List String) :
    ∀ hist : List String, bs.Nodup → (∀ b ∈ bs, hist.count b = 0) →
      idsSpec hist bs = bs := by
  induction bs with
  | nil => intro _ _ _; rfl
  | cons b bs ih =>
    intro hist hnd hc
    rw [idsSpec]
    have hcb := hc b (List.mem_cons_self _ _)
    rw [hcb]
    simp only [if_pos rfl]
    congr 1
    apply ih (hist ++ [b]) (List.nodup_cons.mp hnd).2
    intro b' hb'
    rw [List.count_append]
    have h1 : hist.count b' = 0 := hc b' (List.mem_cons_of_mem _ hb')
    have h2 : ([b] : List String).count b' = 0 := by
      apply List.count_eq_zero.mpr
      intro hmem
      simp at hmem
      rw [hmem] at hb'
      exact (List.nodup_cons.mp hnd).1 hb'
    omega

theorem planSteps_norm_idem (l : List PlanStep) :
    ((((l.map fun s => ({ step := jsTrim s.step, detail := jsTrim s.detail } : PlanStep)).filter
        fun s => s.step.length > 0 && s.detail.length > 0).map
      fun s => ({ step := jsTrim s.step, detail := jsTrim s.detail } : PlanStep)).filter
      fun s => s.step.length > 0 && s.detail.length > 0) =
    ((l.map fun s => ({ step := jsTrim s.step, detail := jsTrim s.detail } : PlanStep)).filter
      fun s => s.step.length > 0 && s.detail.length > 0) := by
  have hfix : ∀ s ∈ (l.map fun s =>
      ({ step := jsTrim s.step, detail := jsTrim s.detail } : PlanStep)).filter
        (fun s => s.step.length > 0 && s.detail.length > 0),
      ({ step := jsTrim s.step, detail := jsTrim s.detail } : PlanStep) = s := by
    intro s hs
    obtain ⟨hs', _⟩ := List.mem_filter.mp hs
    obtain ⟨s₀, _, rfl⟩ := List.mem_map.mp hs'
    simp [jsTrim_idem]
  rw [List.map_congr_left hfix]
  rw [show (List.map (fun a => a)
      ((l.map fun s => ({ step := jsTrim s.step, detail := jsTrim s.detail } : PlanStep)).filter
        (fun s => s.step.length > 0 && s.detail.length > 0))) =
    ((l.map fun s => ({ step := jsTrim s.step, detail := jsTrim s.detail } : PlanStep)).filter
      (fun s => s.step.length > 0 && s.detail.length > 0)) from List.map_id' _]
  apply List.filter_eq_self.mpr
  intro s hs
  exact (List.mem_filter.mp hs).2

theorem normalizeToolPlan_plan_eq (q : ToolPlan) :
    (normalizeToolPlan q).plan =
      (q.plan.map fun s =>
        ({ step := jsTrim s.step, detail := jsTrim s.detail } : PlanStep)).filter
        (fun s => s.step.length > 0 && s.detail.length > 0) := rfl

theorem normalizeToolPlan_invs_eq (q : ToolPlan) :
    (normalizeToolPlan q).toolInvocations =
      (assignInvocationIds q.toolInvocations 1 fun _ => 0).filter
        (fun inv => inv.description.length > 0 || inv.tool == ToolKind.none) := rfl

theorem normalizeToolPlan_final_eq (q : ToolPlan) :
    (normalizeToolPlan q).finalResponseInstruction =
      (if (jsTrim q.finalResponseInstruction).length > 0
       then jsTrim q.finalResponseInstruction
       else DEFAULT_FINAL_RESPONSE_INSTRUCTION) := rfl

/-- C3 (amended): `normalizeToolPlan` is idempotent on every plan whose
once-normalized invocation ids are pairwise distinct — in particular on all
plans free of the base-id/suffixed-id collision of the counterexample.  On
a plan whose collision disambiguation makes a suffixed id coincide with a
later invocation's id, a second normalization renames again, so
normalization is not a true fixed point in general. -/
theorem normalizeToolPlan_idem (p : ToolPlan)
    (h : ((normalizeToolPlan p).toolInvocations.map (fun i => i.id)).Nodup) :
    normalizeToolPlan (normalizeToolPlan p) = normalizeToolPlan p := by
  have hplan : (normalizeToolPlan (normalizeToolPlan p)).plan =
      (normalizeToolPlan p).plan := by
    rw [normalizeToolPlan_plan_eq (normalizeToolPlan p), normalizeToolPlan_plan_eq p]
    exact planSteps_norm_idem p.plan
  have hinvs : (normalizeToolPlan (normalizeToolPlan p)).toolInvocations =
      (normalizeToolPlan p).toolInvocations := by
    rw [normalizeToolPlan_invs_eq (normalizeToolPlan p)]
    have hfixed : assignInvocationIds (normalizeToolPlan p).toolInvocations 1
        (fun _ => 0) = (normalizeToolPlan p).toolInvocations := by
      apply assignInvocationIds_fixed
      · intro inv hi
        rw [normalizeToolPlan_invs_eq p] at hi
        have hi' : inv ∈ assignInvocationIds p.toolInvocations 1 (fun _ => 0) :=
          List.mem_of_mem_filter hi
        obtain ⟨hne, hws⟩ := assign_output_id_props _ _ _ _ hi'
        obtain ⟨inv₀, _, i, _, _, hdesc, hparams⟩ :=
          mem_assignInvocationIds _ _ _ _ hi'
        refine ⟨hne, hws, ?_, ?_⟩
        · rw [hdesc, jsTrim_idem]
        · rw [hparams, normalizeInvocationParameters_idem]
      · exact h
      · intro _ _; rfl
    rw [hfixed]
    apply List.filter_eq_self.mpr
    intro inv hi
    rw [normalizeToolPlan_invs_eq p] at hi
    exact (List.mem_filter.mp hi).2
  have hfin : (normalizeToolPlan (normalizeToolPlan p)).finalResponseInstruction =
      (normalizeToolPlan p).finalResponseInstruction := by
    rw [normalizeToolPlan_final_eq (normalizeToolPlan p), normalizeToolPlan_final_eq p]
    by_cases h1 : (jsTrim p.finalResponseInstruction).length > 0
    · rw [if_pos h1, jsTrim_idem, if_pos h1]
    · rw [if_neg h1,
        show jsTrim DEFAULT_FINAL_RESPONSE_INSTRUCTION =
          DEFAULT_FINAL_RESPONSE_INSTRUCTION from by decide,
        if_pos (by decide)]
  have heta : normalizeToolPlan (normalizeToolPlan p) =
      ⟨(normalizeToolPlan (normalizeToolPlan p)).plan,
       (normalizeToolPlan (normalizeToolPlan p)).toolInvocations,
       (normalizeToolPlan (normalizeToolPlan p)).finalResponseInstruction⟩ := rfl
  rw [heta, hplan, hinvs, hfin]

/-- C3 counterexample: normalizing `collisionPlan` once yields invocation
ids `[a, a-2, a-2]`; normalizing a second time yields `[a, a-2, a-2-2]` —
`normalizeToolPlan` is not a true fixed point because the collision
counter re-fires on the ids it produced. -/
theorem normalizeToolPlan_idem_counterexample :
    normalizeToolPlan (normalizeToolPlan collisionPlan) ≠
      normalizeToolPlan collisionPlan ∧
    ((normalizeToolPlan (normalizeToolPlan collisionPlan)).toolInvocations.map
      (fun i => i.id)) = ["a", "a-2", "a-2-2"] := by
  refine ⟨by decide, by decide⟩

/-- Witness for `normalizeToolPlan_idem` at a plan exercising trimming,
the positional id fallback, whitespace replacement and parameter
stripping. -/
theorem normalizeToolPlan_idem_witness :
    (((normalizeToolPlan ({ plan := [{ step := " find ", detail := " why " }], toolInvocations := [{ id := "  ", tool := ToolKind.search, description := " d ", parameters := [("x", JVal.jnull), ("q", JVal.jstr "ok")] }, { id := "my id", tool := ToolKind.retrieve, description := "e", parameters := [] }], finalResponseInstruction := "  " } : ToolPlan)).toolInvocations.map (fun i => i.id)).Nodup) ∧
    normalizeToolPlan (normalizeToolPlan ({ plan := [{ step := " find ", detail := " why " }], toolInvocations := [{ id := "  ", tool := ToolKind.search, description := " d ", parameters := [("x", JVal.jnull), ("q", JVal.jstr "ok")] }, { id := "my id", tool := ToolKind.retrieve, description := "e", parameters := [] }], finalResponseInstruction := "  " } : ToolPlan)) =
      normalizeToolPlan ({ plan := [{ step := " find ", detail := " why " }], toolInvocations := [{ id := "  ", tool := ToolKind.search, description := " d ", parameters := [("x", JVal.jnull), ("q", JVal.jstr "ok")] }, { id := "my id", tool := ToolKind.retrieve, description := "e", parameters := [] }], finalResponseInstruction := "  " } : ToolPlan) := by
  refine ⟨by decide, normalizeToolPlan_idem _ (by decide)⟩
